import Mathlib

/-!
Shallow embedding of the tbd (Tiny Basic Datastore) arena memory manager,
translated from the newest revision of tbd.c in this repository.  That
revision is compiled with the configuration block at its top:
TBD_USE_NULL_TERMINATED_KEY_STRINGS, TBD_USE_NULL_TERMINATED_VALUES,
TBD_USE_LAST_FOUND_CACHE, TBD_USE_GARBAGE_LIST and TBD_USE_PACKED_STRUCTS
are all defined, so keys and values carry no stored length (their sizes are
recovered with strlen over the heap bytes), the last-found cache and the
intrusive garbage list are present, and structs are packed.

Modelling conventions.
The arena base address is 0, so the header occupies addresses
[0, sizeof_tbd_struct) and descriptor slot i occupies
[sizeof_tbd_struct + i * sizeof_tbd_keyvalue, ...).  Addresses are
unbounded integers (C pointer arithmetic on a valid arena never wraps).
Heap bytes are a total function from addresses to byte values; writes
outside the arena (which are out-of-bounds accesses in C) simply land in
that flat memory.  C pointers to keyvalue descriptors are modelled as slot
indexes into the descriptor stack, which is a Lean list whose index 0 is
the bottom (oldest) slot; the last-found cache and the intrusive garbage
links hold such indexes.  The struct sizes are those of the packed structs
on an LP64 target (pointers and size_t are 8 bytes): a keyvalue is
16 (heap) + 8 (key ptr) + 8 (value ptr) + 1 (flags) + 8 + 8 (garbage
links) = 49 bytes, and the tbd header is 8 + 8 + 8 + 16 + 16 + 16 = 72
bytes.  C loops that walk a linked list or an iterator pair take an
explicit scan bound (fuel) chosen at least as large as any list the code
can build; fuel is a modelling artifact, not part of the algorithm.
strlen likewise takes a scan bound, instantiated with the arena size at
call sites.  Debug-only TBD_ASSERT checks have no run-time effect and are
not modelled.
-/

/-- Size in bytes of the packed tbd_keyvalue_t struct on an LP64 target. -/
def sizeof_tbd_keyvalue : Nat := 49

/-- Size in bytes of the packed struct tbd_struct header on an LP64 target. -/
def sizeof_tbd_struct : Nat := 72

/-- Error code TBD_NO_ERROR. -/
def TBD_NO_ERROR : Int := 0

/-- Error code TBD_ERROR. -/
def TBD_ERROR : Int := -1

/-- Error code TBD_ERROR_KEY_NOT_FOUND. -/
def TBD_ERROR_KEY_NOT_FOUND : Int := -2

/-- Error code TBD_ERROR_KEY_EXISTS. -/
def TBD_ERROR_KEY_EXISTS : Int := -3

/-- Error code TBD_ERROR_BAD_SIZE. -/
def TBD_ERROR_BAD_SIZE : Int := -4

/-- Heap byte memory: a total map from addresses to byte values. -/
def Mem : Type := Int → Nat

/-- The memcpy of a list of bytes to destination address dest, as one
functional update covering the written range. -/
def memcpyList (m : Mem) (dest : Int) (l : List Nat) : Mem :=
  fun x => if dest ≤ x ∧ x < dest + l.length then l.getD (x - dest).toNat 0 else m x

/-- Read n consecutive bytes starting at address a. -/
def memReadBytes (m : Mem) (a : Int) (n : Nat) : List Nat :=
  (List.range n).map (fun i : Nat => m (a + (i : Int)))

/-- The memcpy of n bytes from address src to address dest (the source and
destination regions never overlap at the call sites modelled here). -/
def memcpyMem (m : Mem) (dest src : Int) (n : Nat) : Mem :=
  memcpyList m dest (memReadBytes m src n)

/-- The C strlen starting at address a, with an explicit scan bound. -/
def strlenMem (m : Mem) (a : Int) : Nat → Nat
  | 0 => 0
  | fuel + 1 => if m a = 0 then 0 else strlenMem m (a + 1) fuel + 1

/-- The C strcmp between the string stored at address a and the argument
string whose content bytes (without the terminator) are the list k.
Recursion is on the argument string, exactly as strcmp stops at the first
difference or at the terminator. -/
def strcmpMem (m : Mem) (a : Int) : List Nat → Int
  | [] => (m a : Int)
  | c :: rest =>
    if m a = c ∧ c ≠ 0 then strcmpMem m (a + 1) rest else (m a : Int) - (c : Int)

/-- tbd_key_t: reference to a key string inside the heap (NULL is 0). -/
structure TbdKey where
  str : Int
  deriving DecidableEq, Repr

/-- tbd_value_t: reference to value bytes inside the heap (NULL is 0). -/
structure TbdValue where
  data : Int
  deriving DecidableEq, Repr

/-- tbd_heap_t: a contiguous range of heap memory. -/
structure TbdHeap where
  top : Int
  size : Nat
  deriving DecidableEq, Repr

/-- tbd_keyvalue_t: one descriptor binding a key, a value and a hunk.  The
garbage links hold descriptor slot indexes (C stores slot pointers). -/
structure TbdKeyvalue where
  heap : TbdHeap
  key : TbdKey
  value : TbdValue
  is_garbage : Bool
  prev_garbage : Option Nat
  next_garbage : Option Nat
  deriving DecidableEq, Repr

/-- Placeholder contents of a freshly pushed, not yet initialized stack
slot, and the result of dereferencing a dangling descriptor pointer; it is
marked garbage so a stale cached index can never satisfy the live check. -/
def tbd_keyvalue_junk : TbdKeyvalue :=
  { heap := { top := 0, size := 0 }, key := { str := 0 }, value := { data := 0 },
    is_garbage := true, prev_garbage := none, next_garbage := none }

/-- struct tbd_struct together with the heap byte memory of its arena. -/
structure Tbd where
  size : Nat
  hunk_size : Nat
  last_found : Option Nat
  garbage_front : Option Nat
  garbage_back : Option Nat
  stack : List TbdKeyvalue
  heap : TbdHeap
  mem : Mem

/-- Dereference the descriptor at slot index i (junk if out of range,
which in C is a read through a dangling pointer). -/
def stackGet (s : Tbd) (i : Nat) : TbdKeyvalue :=
  s.stack.getD i tbd_keyvalue_junk

/-- Apply f to the element of l at index i (no effect out of range; in C
this is a write through a pointer to memory outside the live stack). -/
def listModify (f : TbdKeyvalue → TbdKeyvalue) : List TbdKeyvalue → Nat → List TbdKeyvalue
  | [], _ => []
  | a :: l, 0 => f a :: l
  | a :: l, i + 1 => a :: listModify f l i

/-- tbd_key_clear. -/
def tbd_key_clear : TbdKey := { str := 0 }

/-- tbd_value_clear. -/
def tbd_value_clear : TbdValue := { data := 0 }

/-- tbd_heap_end: one past the last address of the range. -/
def tbd_heap_end (h : TbdHeap) : Int := h.top + h.size

/-- tbd_heap_cmp: three-way comparison of the top addresses. -/
def tbd_heap_cmp (h1 h2 : TbdHeap) : Int :=
  if h1.top < h2.top then -1 else if h1.top > h2.top then 1 else 0

/-- tbd_heap_push: the heap grows into lower addresses. -/
def tbd_heap_push (h : TbdHeap) (hunk : Nat) : TbdHeap :=
  { top := h.top - hunk, size := h.size + hunk }

/-- tbd_heap_pop: inverse of push. -/
def tbd_heap_pop (h : TbdHeap) (hunk : Nat) : TbdHeap :=
  { top := h.top + hunk, size := h.size - hunk }

/-- tbd_keyvalue_set_garbage: trashing an element also clears its key and
value references. -/
def tbd_keyvalue_set_garbage (kv : TbdKeyvalue) (g : Bool) : TbdKeyvalue :=
  if g then
    { kv with is_garbage := true, key := tbd_key_clear, value := tbd_value_clear }
  else
    { kv with is_garbage := false }

/-- tbd_keyvalue_size: heap bytes plus the descriptor itself. -/
def tbd_keyvalue_size (kv : TbdKeyvalue) : Nat :=
  kv.heap.size + sizeof_tbd_keyvalue

/-- tbd_keyvalue_keycmp: strcmp between the stored key string and the
argument key bytes. -/
def tbd_keyvalue_keycmp (m : Mem) (kv : TbdKeyvalue) (key : List Nat) : Int :=
  strcmpMem m kv.key.str key

/-- tbd_value_size for the null-terminated-values configuration:
strlen of the stored bytes plus one for the terminator.  The scan bound is
instantiated with the arena size at call sites. -/
def tbd_value_size (m : Mem) (fuel : Nat) (v : TbdValue) : Nat :=
  strlenMem m v.data fuel + 1

/-- tbd_keyvalue_copy: copy the value bytes and then the key bytes of src
onto dest's references, then overwrite dest's key and value references
with src's (as the source does).  Returns the updated dest, the updated
memory and the C return value tbd_keyvalue_size(src).  Note the key copy
uses tbd_key_size, which excludes the null terminator. -/
def tbd_keyvalue_copy (m : Mem) (fuel : Nat) (dest src : TbdKeyvalue) :
    TbdKeyvalue × Mem × Nat :=
  let value_size := tbd_value_size m fuel src.value
  let m1 := memcpyMem m dest.value.data src.value.data value_size
  let key_size := strlenMem m1 src.key.str fuel
  let m2 := memcpyMem m1 dest.key.str src.key.str key_size
  ({ dest with key := src.key, value := src.value }, m2, tbd_keyvalue_size src)

/-- tbd_keyvalue_merge_garbage: merge two garbage keyvalues whose hunks
are contiguous.  The function orders the pair by heap address through
tbd_keyvalue_swap_ptr; that helper is a broken swap (it copies the second
pointer onto both variables), so when the first argument is the
higher-addressed one both locals end up aliasing the second argument and
no merge happens unless its hunk is empty.  Returns the updated pair in
argument order and the C return value. -/
def tbd_keyvalue_merge_garbage (a b : TbdKeyvalue) : TbdKeyvalue × TbdKeyvalue × Nat :=
  if ¬(a.is_garbage ∧ b.is_garbage) then (a, b, 0)
  else if tbd_heap_cmp a.heap b.heap > 0 then
    -- tbd_keyvalue_swap_ptr leaves both locals pointing at b
    if tbd_heap_end b.heap ≠ b.heap.top then (a, b, 0)
    else
      let h1 := b.heap.size
      let b1 := { b with heap := tbd_heap_push b.heap h1 }
      let b2 := { b1 with heap := tbd_heap_pop b1.heap h1 }
      (a, b2, b2.heap.size)
  else
    if tbd_heap_end a.heap ≠ b.heap.top then (a, b, 0)
    else
      let h1 := a.heap.size
      let b1 := { b with heap := tbd_heap_push b.heap h1 }
      let a1 := { a with heap := tbd_heap_pop a.heap h1 }
      (a1, b1, b1.heap.size)

/-- Walk of tbd_garbage_list_insert that finds the sorted insertion point:
advance (prev, next) while next is non-null and next's heap top is below
the inserted keyvalue's heap top.  The last argument is the scan bound. -/
def tbd_garbage_insert_scan (s : Tbd) (kvTop : Int) :
    Option Nat → Option Nat → Nat → Option Nat × Option Nat
  | prev, none, _ => (prev, none)
  | prev, some nx, 0 => (prev, some nx)
  | prev, some nx, fuel + 1 =>
    if (stackGet s nx).heap.top < kvTop then
      tbd_garbage_insert_scan s kvTop (some nx) (stackGet s nx).next_garbage fuel
    else (prev, some nx)

/-- Walk of tbd_garbage_list_insert that finds the last element of the
sub-list hanging off the inserted keyvalue's next link. -/
def tbd_garbage_last (s : Tbd) : Nat → Nat → Nat
  | idx, 0 => idx
  | idx, fuel + 1 =>
    match (stackGet s idx).next_garbage with
    | none => idx
    | some nx => tbd_garbage_last s nx fuel

/-- tbd_garbage_list_insert: insert the descriptor at slot idx into the
garbage list kept sorted by heap top address, then mark it garbage.  The
back pointer is not maintained by the non-empty branch, exactly as in the
source. -/
def tbd_garbage_list_insert (s : Tbd) (idx : Nat) : Tbd :=
  let kv := stackGet s idx
  let s1 :=
    match s.garbage_front with
    | none =>
      let st := listModify (fun k => { k with prev_garbage := none, next_garbage := none }) s.stack idx
      { s with garbage_front := some idx, garbage_back := some idx, stack := st }
    | some _ =>
      let pn := tbd_garbage_insert_scan s kv.heap.top none s.garbage_front (s.stack.length + 1)
      let prev := pn.1
      let next := pn.2
      let last := tbd_garbage_last s idx (s.stack.length + 1)
      let s2 :=
        match prev with
        | some p => { s with stack := listModify (fun k => { k with next_garbage := some idx }) s.stack p }
        | none => { s with garbage_front := some idx }
      let s3 := { s2 with stack := listModify (fun k => { k with prev_garbage := prev }) s2.stack idx }
      match next with
      | some nx =>
        if some nx ≠ prev then
          let s4 := { s3 with stack := listModify (fun k => { k with prev_garbage := some last }) s3.stack nx }
          { s4 with stack := listModify (fun k => { k with next_garbage := some nx }) s4.stack last }
        else s3
      | none => s3
  { s1 with stack := listModify (fun k => tbd_keyvalue_set_garbage k true) s1.stack idx }

/-- tbd_garbage_list_delete: unlink the descriptor at slot idx, whose
contents at call time are kv (the caller may already have popped the slot
off the stack, in which case the final flag write lands outside the live
stack and has no effect, like the C write through the dangling pointer). -/
def tbd_garbage_list_delete (s : Tbd) (idx : Nat) (kv : TbdKeyvalue) : Tbd :=
  let s1 := if s.garbage_front = some idx then { s with garbage_front := kv.next_garbage } else s
  let s2 := if s1.garbage_back = some idx then { s1 with garbage_back := kv.prev_garbage } else s1
  let s3 :=
    match kv.prev_garbage with
    | some p => { s2 with stack := listModify (fun k => { k with next_garbage := kv.next_garbage }) s2.stack p }
    | none => s2
  let s4 :=
    match kv.next_garbage with
    | some q => { s3 with stack := listModify (fun k => { k with prev_garbage := kv.prev_garbage }) s3.stack q }
    | none => s3
  { s4 with stack := listModify (fun k => tbd_keyvalue_set_garbage k false) s4.stack idx }

/-- tbd_reclaim_garbage: delete the slot from the garbage list. -/
def tbd_reclaim_garbage (s : Tbd) (idx : Nat) : Tbd :=
  tbd_garbage_list_delete s idx (stackGet s idx)

/-- tbd_keyvalue_garbage_list_size: total tbd_keyvalue_size over the
chain of next links, with a scan bound. -/
def tbd_keyvalue_garbage_list_size (s : Tbd) : Option Nat → Nat → Nat
  | none, _ => 0
  | some _, 0 => 0
  | some i, fuel + 1 =>
    tbd_keyvalue_size (stackGet s i) +
      tbd_keyvalue_garbage_list_size s (stackGet s i).next_garbage fuel

/-- tbd_garbage_size: byte total of the garbage list. -/
def tbd_garbage_size (s : Tbd) : Nat :=
  tbd_keyvalue_garbage_list_size s s.garbage_front s.stack.length

/-- tbd_keyvalue_hunk_size: hunks needed for a keyvalue; the quotient is
the C integer (floor) division, raised to one hunk when it is zero. -/
def tbd_keyvalue_hunk_size (s : Tbd) (key_size value_size : Nat) : Nat :=
  let hunk_count := (key_size + value_size) / s.hunk_size
  (if hunk_count = 0 then 1 else hunk_count) * s.hunk_size

/-- tbd_find_first_garbage_hunk: bottom-up scan for a garbage descriptor
whose hunk has exactly the requested size. -/
def firstGarbageHunkAux (hunk : Nat) : List TbdKeyvalue → Nat → Option Nat
  | [], _ => none
  | kv :: rest, i =>
    if kv.is_garbage ∧ kv.heap.size = hunk then some i
    else firstGarbageHunkAux hunk rest (i + 1)

/-- tbd_find_first_garbage_hunk over the whole stack. -/
def tbd_find_first_garbage_hunk (s : Tbd) (hunk : Nat) : Option Nat :=
  firstGarbageHunkAux hunk s.stack 0

/-- Common tail of tbd_create_keyvalue: point the value at the hunk top,
zero the value bytes (memset, null-terminated-values configuration), and
point the key just after the value bytes. -/
def tbd_create_keyvalue_finish (s : Tbd) (idx value_size : Nat) : Tbd :=
  let kv := stackGet s idx
  let kv1 := { kv with value := { data := kv.heap.top }, key := { str := kv.heap.top + value_size } }
  { s with stack := s.stack.set idx kv1,
           mem := memcpyList s.mem kv.heap.top (List.replicate value_size 0) }

/-- tbd_create_keyvalue: recycle an exactly matching garbage hunk if one
exists, otherwise push a new descriptor and a new hunk; if the new stack
top would cross the heap top, undo both pushes and fail. -/
def tbd_create_keyvalue (s : Tbd) (key_size value_size : Nat) : Option Nat × Tbd :=
  let hunk := tbd_keyvalue_hunk_size s key_size value_size
  match tbd_find_first_garbage_hunk s hunk with
  | some idx =>
    let s1 := tbd_reclaim_garbage s idx
    (some idx, tbd_create_keyvalue_finish s1 idx value_size)
  | none =>
    let idx := s.stack.length
    let s1 := { s with stack := s.stack ++ [tbd_keyvalue_junk], heap := tbd_heap_push s.heap hunk }
    if s1.heap.top < ((sizeof_tbd_struct + (idx + 1) * sizeof_tbd_keyvalue : Nat) : Int) then
      (none, { s1 with stack := s1.stack.dropLast, heap := tbd_heap_pop s1.heap hunk })
    else
      let fresh : TbdKeyvalue :=
        { heap := { top := s1.heap.top, size := hunk }, key := { str := 0 },
          value := { data := 0 }, is_garbage := false,
          prev_garbage := none, next_garbage := none }
      let s2 := { s1 with stack := s1.stack.set idx fresh }
      (some idx, tbd_create_keyvalue_finish s2 idx value_size)

/-- Top-down linear scan of tbd_find_keyvalue; the argument is one past
the next slot index to examine. -/
def tbd_find_scan (s : Tbd) (key : List Nat) : Nat → Option Nat
  | 0 => none
  | i + 1 =>
    if (stackGet s i).is_garbage = false ∧ tbd_keyvalue_keycmp s.mem (stackGet s i) key = 0 then
      some i
    else tbd_find_scan s key i

/-- Scan part of tbd_find_keyvalue: on a hit the last-found cache is set. -/
def tbd_find_scan_update (s : Tbd) (key : List Nat) : Option Nat × Tbd :=
  match tbd_find_scan s key s.stack.length with
  | some i => (some i, { s with last_found := some i })
  | none => (none, s)

/-- tbd_find_keyvalue: empty check, then the last-found cache (revalidated
for liveness and key equality), then the top-down linear scan. -/
def tbd_find_keyvalue (s : Tbd) (key : List Nat) : Option Nat × Tbd :=
  if s.stack.length = 0 then (none, s)
  else
    match s.last_found with
    | some i =>
      if (stackGet s i).is_garbage = false ∧ tbd_keyvalue_keycmp s.mem (stackGet s i) key = 0 then
        (some i, s)
      else tbd_find_scan_update s key
    | none => tbd_find_scan_update s key

/-- tbd_create: reject duplicates, allocate a keyvalue, then copy the key
string (content plus terminator) and the value bytes into the hunk. -/
def tbd_create (s : Tbd) (key value : List Nat) : Int × Tbd :=
  match tbd_find_keyvalue s key with
  | (some _, s1) => (TBD_ERROR_KEY_EXISTS, s1)
  | (none, s1) =>
    match tbd_create_keyvalue s1 (key.length + 1) value.length with
    | (none, s2) => (TBD_ERROR, s2)
    | (some idx, s2) =>
      let kv := stackGet s2 idx
      let m1 := memcpyList s2.mem kv.key.str (key ++ [0])
      let m2 := memcpyList m1 kv.value.data value
      (TBD_NO_ERROR, { s2 with mem := m2 })

/-- tbd_read: find the key, compare the recovered value size with the
requested one, and copy the value bytes out (returned as a list). -/
def tbd_read (s : Tbd) (key : List Nat) (value_size : Nat) : Int × List Nat × Tbd :=
  match tbd_find_keyvalue s key with
  | (none, s1) => (TBD_ERROR_KEY_NOT_FOUND, [], s1)
  | (some idx, s1) =>
    let kv := stackGet s1 idx
    let vs := tbd_value_size s1.mem s1.size kv.value
    if vs ≠ value_size then (TBD_ERROR_BAD_SIZE, [], s1)
    else (TBD_NO_ERROR, memReadBytes s1.mem kv.value.data value_size, s1)

/-- tbd_delete: missing keys are not an error; otherwise insert into the
garbage list and mark the descriptor garbage. -/
def tbd_delete (s : Tbd) (key : List Nat) : Int × Tbd :=
  match tbd_find_keyvalue s key with
  | (none, s1) => (TBD_NO_ERROR, s1)
  | (some i, s1) =>
    let s2 := tbd_garbage_list_insert s1 i
    (TBD_NO_ERROR, { s2 with stack := listModify (fun k => tbd_keyvalue_set_garbage k true) s2.stack i })

/-- tbd_count: the stack occupancy, garbage descriptors included. -/
def tbd_count (s : Tbd) : Nat := s.stack.length

/-- tbd_is_empty: the C int result of (0 == stack.count). -/
def tbd_is_empty (s : Tbd) : Int :=
  if s.stack.length = 0 then 1 else 0

/-- tbd_clear: reset the stack, the heap, the cache and the garbage list. -/
def tbd_clear (s : Tbd) : Tbd :=
  { s with stack := [], heap := { top := 0, size := 0 },
           last_found := none, garbage_front := none, garbage_back := none }

/-- tbd_empty: forget all descriptors and heap bytes but keep the heap top
(tbd_heap_empty only zeroes the size). -/
def tbd_empty (s : Tbd) : Tbd :=
  { s with stack := [], heap := { s.heap with size := 0 },
           last_found := none, garbage_front := none, garbage_back := none }

/-- tbd_init on a buffer whose byte contents are mem0: fails when the
region cannot hold the header; otherwise clears the header and places the
stack just after it and the heap top at base + size (the base is 0). -/
def tbd_init (size hunk_size : Nat) (mem0 : Mem) : Option Tbd :=
  if size < sizeof_tbd_struct then none
  else
    let t0 := tbd_clear
      { size := 0, hunk_size := 0, last_found := none, garbage_front := none,
        garbage_back := none, stack := [], heap := { top := 0, size := 0 }, mem := mem0 }
    some { t0 with size := size, hunk_size := hunk_size,
                   heap := { top := (size : Int), size := 0 } }

/-- Loop of tbd_garbage_pop: while the stack top is garbage and its hunk
sits at the heap top, pop the hunk, pop the descriptor and unlink it from
the garbage list, unless the next keyvalue would push the reclaimed total
past the limit.  The scan bound equals the stack occupancy, which bounds
the number of pops. -/
def tbd_garbage_pop_loop (s : Tbd) (acc limit : Nat) : Nat → Nat × Tbd
  | 0 => (acc, s)
  | fuel + 1 =>
    if s.stack.length ≠ 0 ∧ (stackGet s (s.stack.length - 1)).is_garbage = true ∧
        (stackGet s (s.stack.length - 1)).heap.top = s.heap.top then
      let kv := stackGet s (s.stack.length - 1)
      let kvsize := tbd_keyvalue_size kv
      if acc + kvsize > limit then (acc, s)
      else
        let s1 := { s with heap := tbd_heap_pop s.heap kv.heap.size, stack := s.stack.dropLast }
        let s2 := tbd_garbage_list_delete s1 (s.stack.length - 1) kv
        if s2.stack.length = 0 then (acc + kvsize, s2)
        else tbd_garbage_pop_loop s2 (acc + kvsize) limit fuel
    else (acc, s)

/-- tbd_garbage_pop. -/
def tbd_garbage_pop (s : Tbd) (limit : Nat) : Nat × Tbd :=
  if limit = 0 then (0, s)
  else tbd_garbage_pop_loop s 0 limit s.stack.length

/-- Pair walk of tbd_garbage_merge: the argument i means the pair of stack
slots (i, i - 1) is merged next, walking from the top of the stack down. -/
def tbd_garbage_merge_walk (s : Tbd) : Nat → Nat × Tbd
  | 0 => (0, s)
  | i + 1 =>
    let r := tbd_keyvalue_merge_garbage (stackGet s (i + 1)) (stackGet s i)
    let s1 := { s with stack := (s.stack.set (i + 1) r.1).set i r.2.1 }
    let rest := tbd_garbage_merge_walk s1 i
    (r.2.2 + rest.1, rest.2)

/-- tbd_garbage_merge: single top-down walk merging stack-adjacent
garbage pairs whose hunks are contiguous. -/
def tbd_garbage_merge (s : Tbd) : Nat × Tbd :=
  if s.stack.length = 0 then (0, s)
  else tbd_garbage_merge_walk s (s.stack.length - 1)

/-- Inner loop of tbd_garbage_fold: scan candidates top-down (the argument
is one past the slot index of temp_top) for a live keyvalue whose hunk
size equals the bottom garbage slot's hunk size and whose keyvalue size
keeps the running total within the limit; on a match copy it into the
garbage slot, swap the garbage flags and patch the garbage list. -/
def tbd_garbage_fold_inner (s : Tbd) (acc limit btm : Nat) : Nat → Nat × Tbd
  | 0 => (acc, s)
  | t + 1 =>
    let kv := stackGet s t
    if kv.is_garbage = true then tbd_garbage_fold_inner s acc limit btm t
    else if acc + tbd_keyvalue_size kv > limit then tbd_garbage_fold_inner s acc limit btm t
    else if (stackGet s btm).heap.size = kv.heap.size then
      let c := tbd_keyvalue_copy s.mem s.size (stackGet s btm) kv
      let s1 := { s with mem := c.2.1, stack := s.stack.set btm c.1 }
      let s2 := { s1 with stack := listModify (fun k => tbd_keyvalue_set_garbage k false) s1.stack btm }
      let s3 := { s2 with stack := listModify (fun k => tbd_keyvalue_set_garbage k true) s2.stack t }
      let btmLinks := stackGet s btm
      let relink : TbdKeyvalue → TbdKeyvalue := fun k =>
        { k with next_garbage := btmLinks.next_garbage, prev_garbage := btmLinks.prev_garbage }
      let s4 := { s3 with stack := listModify relink s3.stack t }
      let s5 := if s4.garbage_front = some btm then { s4 with garbage_front := some t } else s4
      let s6 := if s5.garbage_back = some btm then { s5 with garbage_back := some t } else s5
      tbd_garbage_fold_inner s6 (acc + c.2.2) limit btm t
    else tbd_garbage_fold_inner s acc limit btm t

/-- Outer loop of tbd_garbage_fold: top walks down (reaching -1 at the
end), btm walks up; top skips garbage slots, btm skips live slots, and a
garbage btm facing a live top triggers the inner scan.  One unit of fuel
is spent per iteration; each iteration moves at least one of the two
cursors, so 2 * count + 2 units suffice. -/
def tbd_garbage_fold_outer (s : Tbd) (acc limit : Nat) (top : Int) (btm : Nat) :
    Nat → Nat × Tbd
  | 0 => (acc, s)
  | fuel + 1 =>
    if acc < limit ∧ top ≠ -1 ∧ btm ≠ s.stack.length then
      if (stackGet s top.toNat).is_garbage = true then
        tbd_garbage_fold_outer s acc limit (top - 1) btm fuel
      else if (stackGet s btm).is_garbage = false then
        tbd_garbage_fold_outer s acc limit top (btm + 1) fuel
      else
        let r := tbd_garbage_fold_inner s acc limit btm (top.toNat + 1)
        tbd_garbage_fold_outer r.2 r.1 limit (top - 1) (btm + 1) fuel
    else (acc, s)

/-- tbd_garbage_fold. -/
def tbd_garbage_fold (s : Tbd) (limit : Nat) : Nat × Tbd :=
  if limit = 0 then (0, s)
  else if tbd_garbage_size s = 0 then (0, s)
  else tbd_garbage_fold_outer s 0 limit ((s.stack.length : Int) - 1) 0 (2 * s.stack.length + 2)

/-- Walk of tbd_garbage_pack over adjacent slot pairs from the bottom up:
when the lower slot (dest) is garbage and the upper slot (src) is live,
slide src's value and key to the high end of dest's hunk, hand dest's old
hunk size to src, and swap the two slots' garbage-list membership. -/
def tbd_garbage_pack_walk (s : Tbd) (destI : Nat) : Nat → Tbd
  | 0 => s
  | fuel + 1 =>
    if destI + 1 = s.stack.length then s
    else
      let dkv := stackGet s destI
      let skv := stackGet s (destI + 1)
      let s' :=
        if dkv.is_garbage = true ∧ skv.is_garbage = false then
          let src_size := skv.heap.size
          let dest_size := dkv.heap.size
          let dkv1 := { dkv with heap :=
            { top := dkv.heap.top + (dkv.heap.size : Int) - (src_size : Int), size := src_size } }
          let c := tbd_keyvalue_copy s.mem s.size dkv1 skv
          let s1 := { s with mem := c.2.1, stack := s.stack.set destI c.1 }
          let resize : TbdKeyvalue → TbdKeyvalue := fun k =>
            { k with heap := { k.heap with size := dest_size } }
          let s2 := { s1 with stack := listModify resize s1.stack (destI + 1) }
          let s3 := tbd_garbage_list_delete s2 destI (stackGet s2 destI)
          tbd_garbage_list_insert s3 (destI + 1)
        else s
      tbd_garbage_pack_walk s' (destI + 1) fuel

/-- tbd_garbage_pack.  The source initializes its running total to zero
and never adds to it, so the function always reports zero bytes packed. -/
def tbd_garbage_pack (s : Tbd) (limit : Nat) : Nat × Tbd :=
  if limit = 0 then (0, s)
  else if s.stack.length = 0 then (0, s)
  else (0, tbd_garbage_pack_walk s 0 s.stack.length)

/-- tbd_garbage_collect: pop, then fold, then pack, stopping as soon as
the running total covers the remaining limit. -/
def tbd_garbage_collect (s : Tbd) (limit : Nat) : Nat × Tbd :=
  if limit = 0 then (0, s)
  else if tbd_garbage_size s = 0 then (0, s)
  else
    let p := tbd_garbage_pop s limit
    if limit ≤ p.1 then p
    else
      let limit1 := limit - p.1
      let f := tbd_garbage_fold p.2 limit1
      if limit1 ≤ f.1 then (p.1 + f.1, f.2)
      else
        let limit2 := limit1 - f.1
        let k := tbd_garbage_pack f.2 limit2
        (p.1 + f.1 + k.1, k.2)

/-- tbd_garbage_clean: collect with the current garbage size as limit. -/
def tbd_garbage_clean (s : Tbd) : Nat × Tbd :=
  tbd_garbage_collect s (tbd_garbage_size s)

/-- One bubble pass of tbd_keyvalue_stack_sort_by_heap walking adjacent
pairs from the top of the stack down, swapping a pair whose upper slot has
the higher heap top; the Bool accumulates whether any swap happened. -/
def tbd_bubble_by_heap_walk : List TbdKeyvalue → Nat → Bool → List TbdKeyvalue × Bool
  | st, 0, sw => (st, sw)
  | st, i + 1, sw =>
    let a := st.getD (i + 1) tbd_keyvalue_junk
    let b := st.getD i tbd_keyvalue_junk
    if tbd_heap_cmp a.heap b.heap > 0 then
      tbd_bubble_by_heap_walk ((st.set (i + 1) b).set i a) i true
    else tbd_bubble_by_heap_walk st i sw

/-- tbd_keyvalue_stack_bubble_by_heap. -/
def tbd_keyvalue_stack_bubble_by_heap (st : List TbdKeyvalue) : List TbdKeyvalue × Bool :=
  if st.length < 2 then (st, false)
  else tbd_bubble_by_heap_walk st (st.length - 1) false

/-- Repeat bubble passes until one makes no swap.  Bubble sort needs at
most one pass per element, so count + 1 passes always reach the fixpoint
the C do-while loop runs to. -/
def tbd_sort_by_heap_loop : List TbdKeyvalue → Nat → List TbdKeyvalue
  | st, 0 => st
  | st, f + 1 =>
    let r := tbd_keyvalue_stack_bubble_by_heap st
    if r.2 = true then tbd_sort_by_heap_loop r.1 f else r.1

/-- tbd_sort_by_heap. -/
def tbd_sort_by_heap (s : Tbd) : Int × Tbd :=
  (TBD_NO_ERROR, { s with stack := tbd_sort_by_heap_loop s.stack (s.stack.length + 1) })

/-- Agreement of a memory with a list of bytes laid out from address a. -/
def memAgrees (m : Mem) (a : Int) (l : List Nat) : Prop :=
  ∀ i : Nat, i < l.length → m (a + i) = l.getD i 0

theorem memcpyList_in (m : Mem) (dest : Int) (l : List Nat) (x : Int)
    (h1 : dest ≤ x) (h2 : x < dest + l.length) :
    memcpyList m dest l x = l.getD (x - dest).toNat 0 := by
  simp only [memcpyList]
  rw [if_pos ⟨h1, h2⟩]

theorem memcpyList_out (m : Mem) (dest : Int) (l : List Nat) (x : Int)
    (h : x < dest ∨ dest + l.length ≤ x) :
    memcpyList m dest l x = m x := by
  simp only [memcpyList]
  rw [if_neg]
  rintro ⟨h1, h2⟩
  omega

theorem memAgrees_memcpyList (m : Mem) (a : Int) (l : List Nat) :
    memAgrees (memcpyList m a l) a l := by
  intro i hi
  rw [memcpyList_in m a l (a + i) (by omega) (by omega)]
  congr 1
  omega

theorem memAgrees_mono (m m' : Mem) (a : Int) (l : List Nat)
    (hagree : memAgrees m a l)
    (heq : ∀ x : Int, a ≤ x → x < a + l.length → m' x = m x) :
    memAgrees m' a l := by
  intro i hi
  rw [heq (a + i) (by omega) (by omega)]
  exact hagree i hi

theorem strlenMem_spec (w : List Nat) :
    ∀ (m : Mem) (a : Int) (fuel : Nat), (∀ b ∈ w, b ≠ 0) →
      memAgrees m a (w ++ [0]) → w.length < fuel → strlenMem m a fuel = w.length := by
  induction w with
  | nil =>
    intro m a fuel _ hA hf
    match fuel, hf with
    | fuel + 1, _ =>
      have h0 : m a = 0 := by
        have := hA 0 (by simp)
        simpa using this
      simp [strlenMem, h0]
  | cons c w ih =>
    intro m a fuel hw hA hf
    match fuel, hf with
    | fuel + 1, hf =>
      have hc : m a = c := by
        have := hA 0 (by simp)
        simpa using this
      have hcne : c ≠ 0 := hw c (by simp)
      have hA' : memAgrees m (a + 1) (w ++ [0]) := by
        intro i hi
        have := hA (i + 1) (by simpa using Nat.succ_lt_succ hi)
        have harith : a + ((i : Nat) + 1 : Nat) = a + 1 + (i : Nat) := by push_cast; ring
        rw [harith] at this
        simpa using this
      have hne : m a ≠ 0 := by rw [hc]; exact hcne
      have : strlenMem m a (fuel + 1) = strlenMem m (a + 1) fuel + 1 := by
        simp [strlenMem, hne]
      rw [this, ih m (a + 1) fuel (fun b hb => hw b (by simp [hb])) hA' (by simpa using Nat.lt_of_succ_lt_succ hf)]
      simp

theorem strcmpMem_self (k : List Nat) :
    ∀ (m : Mem) (a : Int), (∀ b ∈ k, b ≠ 0) →
      memAgrees m a (k ++ [0]) → strcmpMem m a k = 0 := by
  induction k with
  | nil =>
    intro m a _ hA
    have h0 : m a = 0 := by
      have := hA 0 (by simp)
      simpa using this
    simp [strcmpMem, h0]
  | cons c k ih =>
    intro m a hk hA
    have hc : m a = c := by
      have := hA 0 (by simp)
      simpa using this
    have hcne : c ≠ 0 := hk c (by simp)
    have hA' : memAgrees m (a + 1) (k ++ [0]) := by
      intro i hi
      have := hA (i + 1) (by simpa using Nat.succ_lt_succ hi)
      have harith : a + ((i : Nat) + 1 : Nat) = a + 1 + (i : Nat) := by push_cast; ring
      rw [harith] at this
      simpa using this
    have : strcmpMem m a (c :: k) = strcmpMem m (a + 1) k := by
      simp [strcmpMem, hc, hcne]
    rw [this]
    exact ih m (a + 1) (fun b hb => hk b (by simp [hb])) hA'

theorem memReadBytes_succ (m : Mem) (a : Int) (n : Nat) :
    memReadBytes m a (n + 1) = m a :: memReadBytes m (a + 1) n := by
  simp only [memReadBytes, List.range_succ_eq_map, List.map_cons, List.map_map]
  refine congrArg₂ List.cons (by simp) ?_
  apply List.map_congr_left
  intro i _
  simp only [Function.comp_apply]
  congr 1
  push_cast
  ring

theorem memReadBytes_spec (m : Mem) (a : Int) (v : List Nat)
    (hA : memAgrees m a v) : memReadBytes m a v.length = v := by
  induction v generalizing m a with
  | nil => simp [memReadBytes]
  | cons c v ih =>
    have hlen : (c :: v).length = v.length + 1 := rfl
    rw [hlen, memReadBytes_succ]
    have hc : m a = c := by
      have := hA 0 (by simp)
      simpa using this
    have hA' : memAgrees m (a + 1) v := by
      intro i hi
      have := hA (i + 1) (by simpa using Nat.succ_lt_succ hi)
      have harith : a + ((i : Nat) + 1 : Nat) = a + 1 + (i : Nat) := by push_cast; ring
      rw [harith] at this
      simpa using this
    rw [hc, ih m (a + 1) hA']

theorem listModify_length (f : TbdKeyvalue → TbdKeyvalue) (l : List TbdKeyvalue) (i : Nat) :
    (listModify f l i).length = l.length := by
  induction l generalizing i with
  | nil => rfl
  | cons a l ih =>
    cases i with
    | zero => rfl
    | succ i => simp [listModify, ih]

theorem listModify_getD_ne (f : TbdKeyvalue → TbdKeyvalue) (l : List TbdKeyvalue)
    (i j : Nat) (d : TbdKeyvalue) (h : j ≠ i) :
    (listModify f l i).getD j d = l.getD j d := by
  induction l generalizing i j with
  | nil => rfl
  | cons a l ih =>
    cases i with
    | zero =>
      cases j with
      | zero => exact absurd rfl h
      | succ j => simp [listModify]
    | succ i =>
      cases j with
      | zero => simp [listModify]
      | succ j => simp only [listModify, List.getD_cons_succ]; exact ih i j (by omega)

theorem listModify_getD_self (f : TbdKeyvalue → TbdKeyvalue) (l : List TbdKeyvalue)
    (i : Nat) (d : TbdKeyvalue) (h : i < l.length) :
    (listModify f l i).getD i d = f (l.getD i d) := by
  induction l generalizing i with
  | nil => simp at h
  | cons a l ih =>
    cases i with
    | zero => simp [listModify]
    | succ i => simp only [listModify, List.getD_cons_succ]; exact ih i (by simpa using h)

theorem listModify_out (f : TbdKeyvalue → TbdKeyvalue) (l : List TbdKeyvalue)
    (i : Nat) (h : l.length ≤ i) : listModify f l i = l := by
  induction l generalizing i with
  | nil => rfl
  | cons a l ih =>
    cases i with
    | zero => simp at h
    | succ i => simp only [listModify]; rw [ih i (by simpa using h)]

theorem list_set_getD_ne (l : List TbdKeyvalue) (i j : Nat) (x d : TbdKeyvalue)
    (h : j ≠ i) : (l.set i x).getD j d = l.getD j d := by
  induction l generalizing i j with
  | nil => rfl
  | cons a l ih =>
    cases i with
    | zero =>
      cases j with
      | zero => exact absurd rfl h
      | succ j => simp [List.set]
    | succ i =>
      cases j with
      | zero => simp [List.set]
      | succ j => simp only [List.set, List.getD_cons_succ]; exact ih i j (by omega)

theorem list_set_getD_self (l : List TbdKeyvalue) (i : Nat) (x d : TbdKeyvalue)
    (h : i < l.length) : (l.set i x).getD i d = x := by
  induction l generalizing i with
  | nil => simp at h
  | cons a l ih =>
    cases i with
    | zero => simp [List.set]
    | succ i => simp only [List.set, List.getD_cons_succ]; exact ih i (by simpa using h)

theorem list_set_getD_of_self (l : List TbdKeyvalue) (i : Nat) (d : TbdKeyvalue) :
    l.set i (l.getD i d) = l := by
  induction l generalizing i with
  | nil => rfl
  | cons a l ih =>
    cases i with
    | zero => simp [List.set]
    | succ i => simp only [List.set, List.getD_cons_succ]; rw [ih i]

theorem list_dropLast_getD (l : List TbdKeyvalue) (j : Nat) (d : TbdKeyvalue)
    (h : j < l.length - 1) : l.dropLast.getD j d = l.getD j d := by
  induction l generalizing j with
  | nil => rfl
  | cons a l ih =>
    cases l with
    | nil => simp at h
    | cons b t =>
      cases j with
      | zero => simp [List.dropLast]
      | succ j =>
        simp only [List.dropLast, List.getD_cons_succ]
        exact ih j (by simp at h ⊢; omega)

/-- Equality of the non-link fields of two descriptors: the hunk, the key
and value references and the garbage flag (the intrusive garbage links are
exempt). -/
def tbd_keyvalue_core_eq (a b : TbdKeyvalue) : Prop :=
  a.heap = b.heap ∧ a.key = b.key ∧ a.value = b.value ∧ a.is_garbage = b.is_garbage

theorem tbd_keyvalue_core_eq_refl (a : TbdKeyvalue) : tbd_keyvalue_core_eq a a :=
  ⟨rfl, rfl, rfl, rfl⟩

theorem tbd_keyvalue_core_eq_trans {a b c : TbdKeyvalue}
    (h1 : tbd_keyvalue_core_eq a b) (h2 : tbd_keyvalue_core_eq b c) :
    tbd_keyvalue_core_eq a c := by
  obtain ⟨x1, x2, x3, x4⟩ := h1
  obtain ⟨y1, y2, y3, y4⟩ := h2
  exact ⟨x1.trans y1, x2.trans y2, x3.trans y3, x4.trans y4⟩

/-- A descriptor update that only rewrites the garbage links. -/
def link_only (f : TbdKeyvalue → TbdKeyvalue) : Prop :=
  ∀ k, tbd_keyvalue_core_eq (f k) k

theorem link_only_next (x : Option Nat) :
    link_only (fun k => { k with next_garbage := x }) := by
  intro k; exact ⟨rfl, rfl, rfl, rfl⟩

theorem link_only_prev (x : Option Nat) :
    link_only (fun k => { k with prev_garbage := x }) := by
  intro k; exact ⟨rfl, rfl, rfl, rfl⟩

theorem link_only_both (x y : Option Nat) :
    link_only (fun k => { k with prev_garbage := x, next_garbage := y }) := by
  intro k; exact ⟨rfl, rfl, rfl, rfl⟩

theorem listModify_core_link_only (f : TbdKeyvalue → TbdKeyvalue) (hf : link_only f)
    (l : List TbdKeyvalue) (i j : Nat) (d : TbdKeyvalue) :
    tbd_keyvalue_core_eq ((listModify f l i).getD j d) (l.getD j d) := by
  by_cases h : j = i
  · subst h
    by_cases hlt : j < l.length
    · rw [listModify_getD_self f l j d hlt]; exact hf _
    · rw [listModify_out f l j (by omega)]; exact tbd_keyvalue_core_eq_refl _
  · rw [listModify_getD_ne f l i j d h]; exact tbd_keyvalue_core_eq_refl _

theorem tbd_garbage_list_delete_mem (s : Tbd) (idx : Nat) (kv : TbdKeyvalue) :
    (tbd_garbage_list_delete s idx kv).mem = s.mem := by
  unfold tbd_garbage_list_delete
  dsimp only
  split <;> split <;> split <;> split <;> rfl

theorem tbd_garbage_list_delete_last_found (s : Tbd) (idx : Nat) (kv : TbdKeyvalue) :
    (tbd_garbage_list_delete s idx kv).last_found = s.last_found := by
  unfold tbd_garbage_list_delete
  dsimp only
  split <;> split <;> split <;> split <;> rfl

theorem tbd_garbage_list_delete_length (s : Tbd) (idx : Nat) (kv : TbdKeyvalue) :
    (tbd_garbage_list_delete s idx kv).stack.length = s.stack.length := by
  unfold tbd_garbage_list_delete
  dsimp only
  split <;> split <;> split <;> split <;>
    simp only [listModify_length]

theorem tbd_garbage_list_delete_heap (s : Tbd) (idx : Nat) (kv : TbdKeyvalue) :
    (tbd_garbage_list_delete s idx kv).heap = s.heap := by
  unfold tbd_garbage_list_delete
  dsimp only
  split <;> split <;> split <;> split <;> rfl

theorem tbd_garbage_list_delete_core (s : Tbd) (idx : Nat) (kv : TbdKeyvalue) (j : Nat)
    (hj : j ≠ idx ∨ s.stack.length ≤ idx) :
    tbd_keyvalue_core_eq (stackGet (tbd_garbage_list_delete s idx kv) j) (stackGet s j) := by
  unfold tbd_garbage_list_delete
  dsimp only
  have step : ∀ (l : List TbdKeyvalue), l.length = s.stack.length →
      tbd_keyvalue_core_eq
        ((listModify (fun k => tbd_keyvalue_set_garbage k false) l idx).getD j tbd_keyvalue_junk)
        (l.getD j tbd_keyvalue_junk) := by
    intro l hl
    rcases hj with hj | hj
    · rw [listModify_getD_ne _ _ _ _ _ hj]; exact tbd_keyvalue_core_eq_refl _
    · rw [listModify_out _ _ _ (by omega)]; exact tbd_keyvalue_core_eq_refl _
  split <;> split <;> split <;> split <;>
    simp only [stackGet] <;>
    first
    | exact step _ rfl
    | (refine tbd_keyvalue_core_eq_trans (step _ (by simp [listModify_length])) ?_
       first
       | exact listModify_core_link_only _ (link_only_next _) _ _ _ _
       | exact listModify_core_link_only _ (link_only_prev _) _ _ _ _
       | (refine tbd_keyvalue_core_eq_trans (listModify_core_link_only _ (link_only_prev _) _ _ _ _) ?_
          exact listModify_core_link_only _ (link_only_next _) _ _ _ _))

theorem tbd_garbage_list_insert_mem (s : Tbd) (idx : Nat) :
    (tbd_garbage_list_insert s idx).mem = s.mem := by
  unfold tbd_garbage_list_insert
  dsimp only
  repeat' split
  all_goals rfl

theorem tbd_garbage_list_insert_last_found (s : Tbd) (idx : Nat) :
    (tbd_garbage_list_insert s idx).last_found = s.last_found := by
  unfold tbd_garbage_list_insert
  dsimp only
  repeat' split
  all_goals rfl

theorem tbd_garbage_list_insert_heap (s : Tbd) (idx : Nat) :
    (tbd_garbage_list_insert s idx).heap = s.heap := by
  unfold tbd_garbage_list_insert
  dsimp only
  repeat' split
  all_goals rfl

theorem tbd_garbage_list_insert_length (s : Tbd) (idx : Nat) :
    (tbd_garbage_list_insert s idx).stack.length = s.stack.length := by
  unfold tbd_garbage_list_insert
  dsimp only
  repeat' split
  all_goals simp only [listModify_length]

theorem tbd_garbage_list_insert_core (s : Tbd) (idx : Nat) (j : Nat)
    (hj : j ≠ idx) :
    tbd_keyvalue_core_eq (stackGet (tbd_garbage_list_insert s idx) j) (stackGet s j) := by
  unfold tbd_garbage_list_insert
  dsimp only
  repeat' split
  all_goals
    simp only [stackGet]
    rw [listModify_getD_ne _ _ _ _ _ hj]
    repeat' first
      | exact tbd_keyvalue_core_eq_refl _
      | refine tbd_keyvalue_core_eq_trans
          (listModify_core_link_only _ (by intro k; exact ⟨rfl, rfl, rfl, rfl⟩) _ _ _ _) ?_

theorem tbd_garbage_list_insert_garbage_at (s : Tbd) (idx : Nat)
    (h : idx < s.stack.length) :
    (stackGet (tbd_garbage_list_insert s idx) idx).is_garbage = true := by
  unfold tbd_garbage_list_insert
  dsimp only
  repeat' split
  all_goals
    simp only [stackGet]
    rw [listModify_getD_self _ _ _ _ (by simp only [listModify_length]; exact h)]
    simp [tbd_keyvalue_set_garbage]

/-- A slot holds a live descriptor whose stored key string compares equal
to the lookup argument. -/
def tbd_live_match (s : Tbd) (key : List Nat) (i : Nat) : Prop :=
  (stackGet s i).is_garbage = false ∧ tbd_keyvalue_keycmp s.mem (stackGet s i) key = 0

instance (s : Tbd) (key : List Nat) (i : Nat) : Decidable (tbd_live_match s key i) :=
  inferInstanceAs (Decidable ((stackGet s i).is_garbage = false ∧
    tbd_keyvalue_keycmp s.mem (stackGet s i) key = 0))

theorem tbd_live_match_lt (s : Tbd) (key : List Nat) (i : Nat)
    (h : tbd_live_match s key i) : i < s.stack.length := by
  by_contra hge
  have : stackGet s i = tbd_keyvalue_junk := by
    simp only [stackGet]
    exact List.getD_eq_default _ _ (by omega)
  rw [tbd_live_match, this] at h
  simp [tbd_keyvalue_junk] at h

theorem tbd_find_scan_some (s : Tbd) (key : List Nat) (n i : Nat)
    (h : tbd_find_scan s key n = some i) : i < n ∧ tbd_live_match s key i := by
  induction n with
  | zero => simp [tbd_find_scan] at h
  | succ n ih =>
    rw [tbd_find_scan] at h
    split at h
    · rename_i hcond
      cases h
      exact ⟨Nat.lt_succ_self _, hcond⟩
    · have := ih h
      exact ⟨Nat.lt_succ_of_lt this.1, this.2⟩

theorem tbd_find_scan_none (s : Tbd) (key : List Nat) (n : Nat) :
    tbd_find_scan s key n = none ↔ ∀ j, j < n → ¬ tbd_live_match s key j := by
  induction n with
  | zero => simp [tbd_find_scan]
  | succ n ih =>
    rw [tbd_find_scan]
    constructor
    · intro h j hj
      split at h
      · cases h
      · intro hm
        rcases Nat.lt_succ_iff_lt_or_eq.mp hj with hlt | heq
        · exact (ih.mp h) j hlt hm
        · subst heq
          rename_i hcond
          exact hcond hm
    · intro h
      split
      · rename_i hcond
        exact absurd hcond (h n (Nat.lt_succ_self _))
      · exact ih.mpr (fun j hj => h j (Nat.lt_succ_of_lt hj))

theorem tbd_find_snd_cases (s : Tbd) (key : List Nat) :
    (tbd_find_keyvalue s key).2 = s ∨
      ∃ i, (tbd_find_keyvalue s key).2 = { s with last_found := some i } := by
  unfold tbd_find_keyvalue tbd_find_scan_update
  repeat' split
  all_goals first
    | exact Or.inl rfl
    | exact Or.inr ⟨_, rfl⟩

theorem tbd_find_snd_mem (s : Tbd) (key : List Nat) :
    (tbd_find_keyvalue s key).2.mem = s.mem := by
  rcases tbd_find_snd_cases s key with h | ⟨i, h⟩ <;> rw [h]

theorem tbd_find_snd_stack (s : Tbd) (key : List Nat) :
    (tbd_find_keyvalue s key).2.stack = s.stack := by
  rcases tbd_find_snd_cases s key with h | ⟨i, h⟩ <;> rw [h]

theorem tbd_find_snd_heap (s : Tbd) (key : List Nat) :
    (tbd_find_keyvalue s key).2.heap = s.heap := by
  rcases tbd_find_snd_cases s key with h | ⟨i, h⟩ <;> rw [h]

theorem tbd_eta_last_found (s : Tbd) (x : Option Nat) (h : s.last_found = x) :
    ({ s with last_found := x } : Tbd) = s := by
  cases s
  simp only at h
  rw [← h]

theorem tbd_find_none_state (s : Tbd) (key : List Nat)
    (h : (tbd_find_keyvalue s key).1 = none) : tbd_find_keyvalue s key = (none, s) := by
  unfold tbd_find_keyvalue tbd_find_scan_update at h ⊢
  repeat' split at h
  all_goals simp_all

theorem tbd_find_none_no_match (s : Tbd) (key : List Nat)
    (h : (tbd_find_keyvalue s key).1 = none) : ∀ j, ¬ tbd_live_match s key j := by
  intro j hm
  have hjlt := tbd_live_match_lt s key j hm
  unfold tbd_find_keyvalue tbd_find_scan_update at h
  split at h
  · omega
  · split at h
    · split at h
      · simp at h
      · split at h
        · simp at h
        · rename_i hscan
          exact (tbd_find_scan_none s key s.stack.length).mp hscan j hjlt hm
    · split at h
      · simp at h
      · rename_i hscan
        exact (tbd_find_scan_none s key s.stack.length).mp hscan j hjlt hm

theorem tbd_find_some_match (s : Tbd) (key : List Nat) (i : Nat)
    (h : (tbd_find_keyvalue s key).1 = some i) : tbd_live_match s key i := by
  unfold tbd_find_keyvalue tbd_find_scan_update at h
  split at h
  · simp at h
  · split at h
    · split at h
      · rename_i hcond
        simp only at h
        cases h
        exact hcond
      · split at h
        · rename_i hscan
          simp only at h
          cases h
          exact (tbd_find_scan_some s key s.stack.length _ hscan).2
        · simp at h
    · split at h
      · rename_i hscan
        simp only at h
        cases h
        exact (tbd_find_scan_some s key s.stack.length _ hscan).2
      · simp at h

theorem tbd_find_some_state (s : Tbd) (key : List Nat) (i : Nat)
    (h : (tbd_find_keyvalue s key).1 = some i) :
    (tbd_find_keyvalue s key).2 = { s with last_found := some i } := by
  by_cases hlen : s.stack.length = 0
  · unfold tbd_find_keyvalue at h
    rw [if_pos hlen] at h
    simp at h
  · unfold tbd_find_keyvalue at h ⊢
    rw [if_neg hlen] at h ⊢
    cases hcache : s.last_found with
    | some p =>
      try rw [hcache] at h
      dsimp only at h ⊢
      by_cases hcond : (stackGet s p).is_garbage = false ∧
          tbd_keyvalue_keycmp s.mem (stackGet s p) key = 0
      · rw [if_pos hcond] at h
        simp only at h
        cases h
        rw [if_pos hcond]
        exact (tbd_eta_last_found s _ hcache).symm
      · rw [if_neg hcond] at h
        rw [if_neg hcond]
        unfold tbd_find_scan_update at h ⊢
        cases hscan : tbd_find_scan s key s.stack.length with
        | none =>
          try rw [hscan] at h
          simp at h
        | some j =>
          try rw [hscan] at h
          simp only at h
          cases h
          rfl
    | none =>
      try rw [hcache] at h
      dsimp only at h ⊢
      unfold tbd_find_scan_update at h ⊢
      cases hscan : tbd_find_scan s key s.stack.length with
      | none =>
        try rw [hscan] at h
        simp at h
      | some j =>
        try rw [hscan] at h
        simp only at h
        cases h
        rfl

theorem tbd_delete_fst (s : Tbd) (key : List Nat) :
    (tbd_delete s key).1 = TBD_NO_ERROR := by
  unfold tbd_delete
  rcases hf : tbd_find_keyvalue s key with ⟨o, s1⟩
  cases o <;> rfl

theorem tbd_delete_none_state (s : Tbd) (key : List Nat)
    (h : (tbd_find_keyvalue s key).1 = none) : tbd_delete s key = (TBD_NO_ERROR, s) := by
  unfold tbd_delete
  rw [tbd_find_none_state s key h]

theorem tbd_delete_mem (s : Tbd) (key : List Nat) :
    (tbd_delete s key).2.mem = s.mem := by
  have hm := tbd_find_snd_mem s key
  unfold tbd_delete
  rcases hf : tbd_find_keyvalue s key with ⟨o, s1⟩
  rw [hf] at hm
  cases o
  · exact hm
  · dsimp only
    rw [tbd_garbage_list_insert_mem]
    exact hm

theorem tbd_delete_length (s : Tbd) (key : List Nat) :
    (tbd_delete s key).2.stack.length = s.stack.length := by
  have hm := tbd_find_snd_stack s key
  unfold tbd_delete
  rcases hf : tbd_find_keyvalue s key with ⟨o, s1⟩
  rw [hf] at hm
  cases o
  · simp only at hm
    rw [hm]
  · dsimp only
    rw [listModify_length, tbd_garbage_list_insert_length]
    simp only at hm
    rw [hm]

theorem tbd_delete_core (s : Tbd) (key : List Nat) (i : Nat)
    (hf : (tbd_find_keyvalue s key).1 = some i) (j : Nat) (hj : j ≠ i) :
    tbd_keyvalue_core_eq (stackGet (tbd_delete s key).2 j) (stackGet s j) := by
  have hstate := tbd_find_some_state s key i hf
  unfold tbd_delete
  rcases hff : tbd_find_keyvalue s key with ⟨o, s1⟩
  have ho : o = some i := by rw [hff] at hf; exact hf
  subst ho
  have hs1 : s1 = { s with last_found := some i } := by rw [hff] at hstate; exact hstate
  dsimp only
  simp only [stackGet]
  rw [listModify_getD_ne _ _ _ _ _ hj]
  refine tbd_keyvalue_core_eq_trans (tbd_garbage_list_insert_core s1 i j hj) ?_
  rw [hs1]
  exact tbd_keyvalue_core_eq_refl _

theorem tbd_delete_garbage_at (s : Tbd) (key : List Nat) (i : Nat)
    (hf : (tbd_find_keyvalue s key).1 = some i) :
    (stackGet (tbd_delete s key).2 i).is_garbage = true := by
  have hstate := tbd_find_some_state s key i hf
  have hlt : i < s.stack.length :=
    tbd_live_match_lt s key i (tbd_find_some_match s key i hf)
  unfold tbd_delete
  rcases hff : tbd_find_keyvalue s key with ⟨o, s1⟩
  have ho : o = some i := by rw [hff] at hf; exact hf
  subst ho
  have hs1 : s1 = { s with last_found := some i } := by rw [hff] at hstate; exact hstate
  dsimp only
  simp only [stackGet]
  rw [listModify_getD_self _ _ _ _
    (by rw [tbd_garbage_list_insert_length, hs1]; exact hlt)]
  simp [tbd_keyvalue_set_garbage]

theorem tbd_delete_cache (s : Tbd) (key : List Nat) (i : Nat)
    (hf : (tbd_find_keyvalue s key).1 = some i) :
    (tbd_delete s key).2.last_found = some i := by
  have hstate := tbd_find_some_state s key i hf
  unfold tbd_delete
  rcases hff : tbd_find_keyvalue s key with ⟨o, s1⟩
  have ho : o = some i := by rw [hff] at hf; exact hf
  subst ho
  have hs1 : s1 = { s with last_found := some i } := by rw [hff] at hstate; exact hstate
  dsimp only
  rw [tbd_garbage_list_insert_last_found, hs1]

theorem tbd_find_after_delete_none (s : Tbd) (key : List Nat)
    (huniq : ∀ a b : Nat, tbd_live_match s key a → tbd_live_match s key b → a = b) :
    (tbd_find_keyvalue (tbd_delete s key).2 key).1 = none := by
  cases hfind : (tbd_find_keyvalue (tbd_delete s key).2 key).1 with
  | none => rfl
  | some j =>
    exfalso
    have hmatch2 := tbd_find_some_match _ key j hfind
    cases hof : (tbd_find_keyvalue s key).1 with
    | none =>
      have hdel := tbd_delete_none_state s key hof
      rw [hdel] at hmatch2
      exact tbd_find_none_no_match s key hof j hmatch2
    | some i =>
      by_cases hji : j = i
      · subst hji
        have := tbd_delete_garbage_at s key j hof
        rw [hmatch2.1] at this
        cases this
      · have hcore := tbd_delete_core s key i hof j hji
        have hmem := tbd_delete_mem s key
        have hlive : tbd_live_match s key j := by
          obtain ⟨hg, hc⟩ := hmatch2
          obtain ⟨hh, hk, hv, hgar⟩ := hcore
          constructor
          · rw [← hgar]; exact hg
          · unfold tbd_keyvalue_keycmp at hc ⊢
            rw [hmem, hk] at hc
            exact hc
        exact hji (huniq j i hlive (tbd_find_some_match s key i hof))

theorem tbd_read_not_found_of_find_none (s : Tbd) (key : List Nat) (n : Nat)
    (h : (tbd_find_keyvalue s key).1 = none) :
    (tbd_read s key n).1 = TBD_ERROR_KEY_NOT_FOUND := by
  unfold tbd_read
  rw [tbd_find_none_state s key h]

/-- All-zero buffer contents, used for concrete scenarios. -/
def memZero : Mem := fun _ => 0

/-- Fallback arena used only to strip the Option from tbd_init in concrete
scenarios. -/
def tbd_default : Tbd :=
  { size := 0, hunk_size := 0, last_found := none, garbage_front := none,
    garbage_back := none, stack := [], heap := { top := 0, size := 0 }, mem := memZero }

/-- The arena produced by a successful tbd_init. -/
def tbd_init_state (size hunk_size : Nat) (mem0 : Mem) : Tbd :=
  { size := size, hunk_size := hunk_size, last_found := none, garbage_front := none,
    garbage_back := none, stack := [], heap := { top := (size : Int), size := 0 },
    mem := mem0 }

theorem tbd_init_eq (size hunk : Nat) (mem0 : Mem) (h : ¬ size < sizeof_tbd_struct) :
    tbd_init size hunk mem0 = some (tbd_init_state size hunk mem0) := by
  unfold tbd_init tbd_init_state tbd_clear
  rw [if_neg h]

theorem tbd_find_on_empty (s : Tbd) (key : List Nat) (h : s.stack = []) :
    tbd_find_keyvalue s key = (none, s) := by
  unfold tbd_find_keyvalue
  rw [if_pos (by rw [h]; rfl)]

/-- The arena after one successful fresh-path Create on a freshly
initialized arena. -/
def tbd_fresh_create_state (size hunk_size : Nat) (mem0 : Mem) (key value : List Nat) : Tbd :=
  let s0 := tbd_init_state size hunk_size mem0
  let H := tbd_keyvalue_hunk_size s0 (key.length + 1) value.length
  let T : Int := (size : Int) - (H : Int)
  { size := size, hunk_size := hunk_size, last_found := none, garbage_front := none,
    garbage_back := none,
    stack := [{ heap := { top := T, size := H },
                key := { str := T + (value.length : Int) },
                value := { data := T },
                is_garbage := false, prev_garbage := none, next_garbage := none }],
    heap := { top := T, size := H },
    mem := memcpyList
      (memcpyList (memcpyList mem0 T (List.replicate value.length 0))
        (T + (value.length : Int)) (key ++ [0]))
      T value }

theorem tbd_create_on_init (size hunk : Nat) (mem0 : Mem) (key value : List Nat)
    (hfit : sizeof_tbd_struct + sizeof_tbd_keyvalue +
      tbd_keyvalue_hunk_size (tbd_init_state size hunk mem0) (key.length + 1) value.length ≤ size) :
    tbd_create (tbd_init_state size hunk mem0) key value =
      (TBD_NO_ERROR, tbd_fresh_create_state size hunk mem0 key value) := by
  have hfind := tbd_find_on_empty (tbd_init_state size hunk mem0) key rfl
  unfold tbd_create
  rw [hfind]
  dsimp only
  unfold tbd_create_keyvalue
  dsimp only
  rw [show tbd_find_first_garbage_hunk (tbd_init_state size hunk mem0)
    (tbd_keyvalue_hunk_size (tbd_init_state size hunk mem0) (key.length + 1) value.length) =
      none from rfl]
  dsimp only
  rw [if_neg (by
    dsimp only [tbd_init_state, tbd_heap_push] at hfit ⊢
    simp only [List.length_nil, sizeof_tbd_struct, sizeof_tbd_keyvalue] at hfit ⊢
    push_cast
    omega)]
  dsimp only [tbd_create_keyvalue_finish, stackGet]
  simp only [tbd_fresh_create_state, tbd_init_state, tbd_heap_push, List.length_nil,
    List.nil_append, List.set_cons_zero, List.getD_cons_zero, Nat.zero_add]

theorem tbd_create_on_init_fail (size hunk : Nat) (mem0 : Mem) (key value : List Nat)
    (hfit : ¬ (sizeof_tbd_struct + sizeof_tbd_keyvalue +
      tbd_keyvalue_hunk_size (tbd_init_state size hunk mem0) (key.length + 1) value.length ≤ size)) :
    tbd_create (tbd_init_state size hunk mem0) key value =
      (TBD_ERROR, tbd_init_state size hunk mem0) := by
  have hfind := tbd_find_on_empty (tbd_init_state size hunk mem0) key rfl
  unfold tbd_create
  rw [hfind]
  dsimp only
  unfold tbd_create_keyvalue
  dsimp only
  rw [show tbd_find_first_garbage_hunk (tbd_init_state size hunk mem0)
    (tbd_keyvalue_hunk_size (tbd_init_state size hunk mem0) (key.length + 1) value.length) =
      none from rfl]
  dsimp only
  rw [if_pos (by
    dsimp only [tbd_init_state, tbd_heap_push] at hfit ⊢
    simp only [List.length_nil, sizeof_tbd_struct, sizeof_tbd_keyvalue] at hfit ⊢
    push_cast
    omega)]
  simp only [tbd_init_state, tbd_heap_push, tbd_heap_pop, List.nil_append,
    List.dropLast_single, Nat.zero_add, Nat.add_sub_cancel, Nat.sub_self]
  rw [Int.sub_add_cancel]

/-- The descriptor produced by a fresh-path Create: hunk at [T, T + H),
value bytes at T, key string at T + n. -/
def tbd_single_slot (T : Int) (H n : Nat) : TbdKeyvalue :=
  { heap := { top := T, size := H }, key := { str := T + (n : Int) },
    value := { data := T }, is_garbage := false, prev_garbage := none,
    next_garbage := none }

theorem tbd_find_single_slot (s : Tbd) (T : Int) (H n : Nat) (key : List Nat)
    (hstack : s.stack = [tbd_single_slot T H n])
    (hcache : s.last_found = none)
    (hcmp : strcmpMem s.mem (T + (n : Int)) key = 0) :
    tbd_find_keyvalue s key = (some 0, { s with last_found := some 0 }) := by
  have hlen : s.stack.length = 1 := by rw [hstack]; rfl
  have hget : stackGet s 0 = tbd_single_slot T H n := by
    simp only [stackGet, hstack, List.getD_cons_zero]
  have hscan : tbd_find_scan s key s.stack.length = some 0 := by
    rw [hlen]
    unfold tbd_find_scan
    rw [if_pos ⟨by rw [hget]; rfl, by rw [tbd_keyvalue_keycmp, hget]; exact hcmp⟩]
  unfold tbd_find_keyvalue
  rw [hcache, if_neg (by omega)]
  dsimp only
  unfold tbd_find_scan_update
  rw [hscan]

theorem tbd_read_single_slot (s : Tbd) (T : Int) (H n : Nat) (key : List Nat)
    (hstack : s.stack = [tbd_single_slot T H n])
    (hcache : s.last_found = none)
    (hcmp : strcmpMem s.mem (T + (n : Int)) key = 0)
    (hvsize : strlenMem s.mem T s.size + 1 = n) :
    tbd_read s key n =
      (TBD_NO_ERROR, memReadBytes s.mem T n, { s with last_found := some 0 }) := by
  unfold tbd_read
  rw [tbd_find_single_slot s T H n key hstack hcache hcmp]
  dsimp only
  have hget : stackGet ({ s with last_found := some 0 } : Tbd) 0 = tbd_single_slot T H n := by
    simp only [stackGet, hstack, List.getD_cons_zero]
  rw [hget]
  rw [show tbd_value_size ({ s with last_found := some 0 } : Tbd).mem
      ({ s with last_found := some 0 } : Tbd).size (tbd_single_slot T H n).value = n by
    unfold tbd_value_size tbd_single_slot
    exact hvsize]
  rw [if_neg (by omega)]
  rfl

/-- Shorthand for the hunk size computed by a fresh create on a fresh
arena, and its heap top address. -/
def tbd_fresh_hunk (size hunk : Nat) (mem0 : Mem) (key v : List Nat) : Nat :=
  tbd_keyvalue_hunk_size (tbd_init_state size hunk mem0) (key.length + 1) v.length

/-- Heap top address of the single hunk after a fresh create. -/
def tbd_fresh_top (size hunk : Nat) (mem0 : Mem) (key v : List Nat) : Int :=
  (size : Int) - (tbd_fresh_hunk size hunk mem0 key v : Int)

theorem tbd_fresh_state_stack (size hunk : Nat) (mem0 : Mem) (key v : List Nat) :
    (tbd_fresh_create_state size hunk mem0 key v).stack =
      [tbd_single_slot (tbd_fresh_top size hunk mem0 key v)
        (tbd_fresh_hunk size hunk mem0 key v) v.length] := rfl

theorem tbd_fresh_state_cache (size hunk : Nat) (mem0 : Mem) (key v : List Nat) :
    (tbd_fresh_create_state size hunk mem0 key v).last_found = none := rfl

theorem tbd_fresh_state_size (size hunk : Nat) (mem0 : Mem) (key v : List Nat) :
    (tbd_fresh_create_state size hunk mem0 key v).size = size := rfl

theorem tbd_fresh_state_mem_key (size hunk : Nat) (mem0 : Mem) (key v : List Nat) :
    memAgrees (tbd_fresh_create_state size hunk mem0 key v).mem
      (tbd_fresh_top size hunk mem0 key v + (v.length : Int)) (key ++ [0]) := by
  unfold tbd_fresh_create_state tbd_fresh_top tbd_fresh_hunk
  dsimp only
  exact memAgrees_mono _ _ _ _ (memAgrees_memcpyList _ _ _)
    (fun x hx1 hx2 => memcpyList_out _ _ _ _ (Or.inr (by omega)))

theorem tbd_fresh_state_mem_value (size hunk : Nat) (mem0 : Mem) (key v : List Nat) :
    memAgrees (tbd_fresh_create_state size hunk mem0 key v).mem
      (tbd_fresh_top size hunk mem0 key v) v := by
  unfold tbd_fresh_create_state tbd_fresh_top tbd_fresh_hunk
  dsimp only
  exact memAgrees_memcpyList _ _ _

theorem tbd_heap_pop_push (h : TbdHeap) (x : Nat) :
    tbd_heap_pop (tbd_heap_push h x) x = h := by
  cases h with
  | mk t sz =>
    unfold tbd_heap_push tbd_heap_pop
    simp [Int.sub_add_cancel, Nat.add_sub_cancel]

theorem tbd_create_fresh_fail_eq (s : Tbd) (key v : List Nat)
    (hfind : (tbd_find_keyvalue s key).1 = none)
    (hgarb : tbd_find_first_garbage_hunk s
      (tbd_keyvalue_hunk_size s (key.length + 1) v.length) = none)
    (hguard : (tbd_heap_push s.heap (tbd_keyvalue_hunk_size s (key.length + 1) v.length)).top <
      ((sizeof_tbd_struct + (s.stack.length + 1) * sizeof_tbd_keyvalue : Nat) : Int)) :
    tbd_create s key v = (TBD_ERROR, s) := by
  unfold tbd_create
  rw [tbd_find_none_state s key hfind]
  dsimp only
  unfold tbd_create_keyvalue
  dsimp only
  rw [hgarb]
  dsimp only
  rw [if_pos hguard]
  simp only [List.dropLast_concat, tbd_heap_pop_push]

/-- Claim C4: if Create takes the fresh path (no duplicate key, no garbage
descriptor of matching hunk size) and the post-push stack top would cross
the heap top, Create returns Error and fully rolls back: the stack count,
heap top and heap size after the failed call equal their values before the
call (indeed the whole arena state is unchanged). -/
theorem C4_create_rollback (s : Tbd) (key v : List Nat)
    (hfind : (tbd_find_keyvalue s key).1 = none)
    (hgarb : tbd_find_first_garbage_hunk s
      (tbd_keyvalue_hunk_size s (key.length + 1) v.length) = none)
    (hguard : (tbd_heap_push s.heap (tbd_keyvalue_hunk_size s (key.length + 1) v.length)).top <
      ((sizeof_tbd_struct + (s.stack.length + 1) * sizeof_tbd_keyvalue : Nat) : Int)) :
    (tbd_create s key v).1 = TBD_ERROR ∧
    (tbd_create s key v).2.stack.length = s.stack.length ∧
    (tbd_create s key v).2.heap.top = s.heap.top ∧
    (tbd_create s key v).2.heap.size = s.heap.size := by
  rw [tbd_create_fresh_fail_eq s key v hfind hgarb hguard]
  exact ⟨rfl, rfl, rfl, rfl⟩

/-- Witness for C4 at a concrete input: an arena of 80 bytes holds the
72-byte header but not a 49-byte descriptor plus a 4-byte hunk, so the
first Create fails and leaves the arena untouched. -/
theorem C4_create_rollback_witness :
    (tbd_create (tbd_init_state 80 4 memZero) [107] [1]).1 = TBD_ERROR ∧
    (tbd_create (tbd_init_state 80 4 memZero) [107] [1]).2.stack.length =
      (tbd_init_state 80 4 memZero).stack.length ∧
    (tbd_create (tbd_init_state 80 4 memZero) [107] [1]).2.heap.top =
      (tbd_init_state 80 4 memZero).heap.top ∧
    (tbd_create (tbd_init_state 80 4 memZero) [107] [1]).2.heap.size =
      (tbd_init_state 80 4 memZero).heap.size :=
  C4_create_rollback (tbd_init_state 80 4 memZero) [107] [1]
    (by decide) (by decide) (by decide)

/-- Claim C7 (amended): tbd_init fails exactly when the buffer cannot hold
the header; hunk_size is stored without any zero check.  On success the
returned arena has an empty descriptor stack, heap top at base + size
(the base address is 0 in this embedding) and zero heap bytes in use. -/
theorem C7_init_amended :
    (∀ (size hunk : Nat) (mem0 : Mem),
      tbd_init size hunk mem0 =
        if size < sizeof_tbd_struct then none
        else some (tbd_init_state size hunk mem0)) ∧
    (∀ (size hunk : Nat) (mem0 : Mem),
      (tbd_init_state size hunk mem0).stack.length = 0 ∧
      (tbd_init_state size hunk mem0).heap.top = (size : Int) ∧
      (tbd_init_state size hunk mem0).heap.size = 0 ∧
      (tbd_init_state size hunk mem0).hunk_size = hunk) := by
  constructor
  · intro size hunk mem0
    by_cases h : size < sizeof_tbd_struct
    · rw [if_pos h]
      unfold tbd_init
      rw [if_pos h]
    · rw [if_neg h]
      exact tbd_init_eq size hunk mem0 h
  · intro size hunk mem0
    exact ⟨rfl, rfl, rfl, rfl⟩

/-- Counterexample for C7 as stated: the claim says Initialize fails when
hunk_size is 0, but tbd_init performs no such check: on a 72-byte buffer
with hunk_size 0 it returns an arena (with hunk_size 0 stored), while the
size check alone is enforced. -/
theorem C7_counterexample :
    (tbd_init 72 0 memZero).isSome = true ∧
    ((tbd_init 72 0 memZero).getD tbd_default).hunk_size = 0 ∧
    tbd_init 71 1 memZero = none := by
  refine ⟨rfl, rfl, ?_⟩
  unfold tbd_init
  rfl

/-- The hunk count demanded by the specification: the ceiling of
(strlen(key) + 1 + n) / hunk_size, and at least one hunk.  Modelled from
the spec words in section 4.5, for comparison with the source's
tbd_keyvalue_hunk_size. -/
def spec_hunk_required (hunk_size key_size value_size : Nat) : Nat :=
  max hunk_size (((key_size + value_size + hunk_size - 1) / hunk_size) * hunk_size)

/-- Claim C3 is a code bug: for hunk_size 4 and a keyvalue needing
5 bytes (strlen(key) + 1 = 4, n = 1), the source's floor-division
computation reserves 4 bytes where the specified ceiling formula demands
8, so the descriptor's heap_size (set to exactly the computed value) is
smaller than the bytes the entry must store. -/
theorem C3_hunk_size_bug :
    tbd_keyvalue_hunk_size (tbd_init_state 1024 4 memZero) 4 1 = 4 ∧
    spec_hunk_required 4 4 1 = 8 ∧
    tbd_keyvalue_hunk_size (tbd_init_state 1024 4 memZero) 4 1 < 4 + 1 := by
  refine ⟨rfl, ?_, by decide⟩
  decide

/-- Claim C1 (amended): on a freshly initialized arena, if Create(k, v, n)
returns Ok and v is stored as a null-terminated value (its final byte is
the only null, as the TBD_USE_NULL_TERMINATED_VALUES configuration
requires) and the entry's bytes fit the reserved hunk, then an immediately
following Read(k, buf, n) returns Ok and yields bytes equal to v. -/
theorem C1_create_read_amended
    (size hunk : Nat) (mem0 : Mem) (s0 : Tbd) (key w : List Nat)
    (hinit : tbd_init size hunk mem0 = some s0)
    (hkey : ∀ b ∈ key, b ≠ 0)
    (hw : ∀ b ∈ w, b ≠ 0)
    (hfitHunk : key.length + 1 + (w ++ [0]).length ≤
      tbd_keyvalue_hunk_size s0 (key.length + 1) (w ++ [0]).length)
    (hok : (tbd_create s0 key (w ++ [0])).1 = TBD_NO_ERROR) :
    (tbd_read (tbd_create s0 key (w ++ [0])).2 key (w ++ [0]).length).1 = TBD_NO_ERROR ∧
    (tbd_read (tbd_create s0 key (w ++ [0])).2 key (w ++ [0]).length).2.1 = w ++ [0] := by
  have hsize : ¬ size < sizeof_tbd_struct := by
    by_contra h
    unfold tbd_init at hinit
    rw [if_pos h] at hinit
    cases hinit
  have hs0 : s0 = tbd_init_state size hunk mem0 := by
    rw [tbd_init_eq size hunk mem0 hsize] at hinit
    exact (Option.some.inj hinit).symm
  subst hs0
  by_cases harena : sizeof_tbd_struct + sizeof_tbd_keyvalue +
      tbd_keyvalue_hunk_size (tbd_init_state size hunk mem0) (key.length + 1)
        (w ++ [0]).length ≤ size
  case neg =>
    exfalso
    rw [tbd_create_on_init_fail size hunk mem0 key (w ++ [0]) harena] at hok
    simp [TBD_ERROR, TBD_NO_ERROR] at hok
  case pos =>
    rw [tbd_create_on_init size hunk mem0 key (w ++ [0]) harena]
    have hn : (w ++ [0]).length = w.length + 1 := by simp
    have hwlt : w.length < size := by
      have h1 : (w ++ [0]).length ≤ tbd_keyvalue_hunk_size (tbd_init_state size hunk mem0)
          (key.length + 1) (w ++ [0]).length := by omega
      omega
    have hcmp : strcmpMem (tbd_fresh_create_state size hunk mem0 key (w ++ [0])).mem
        (tbd_fresh_top size hunk mem0 key (w ++ [0]) + ((w ++ [0]).length : Int)) key = 0 :=
      strcmpMem_self key _ _ hkey (tbd_fresh_state_mem_key size hunk mem0 key (w ++ [0]))
    have hstrlen0 : strlenMem (tbd_fresh_create_state size hunk mem0 key (w ++ [0])).mem
        (tbd_fresh_top size hunk mem0 key (w ++ [0]))
        (tbd_fresh_create_state size hunk mem0 key (w ++ [0])).size = w.length :=
      strlenMem_spec w _ _ _ hw (tbd_fresh_state_mem_value size hunk mem0 key (w ++ [0]))
        (by rw [tbd_fresh_state_size]; omega)
    have hstrlen : strlenMem (tbd_fresh_create_state size hunk mem0 key (w ++ [0])).mem
        (tbd_fresh_top size hunk mem0 key (w ++ [0]))
        (tbd_fresh_create_state size hunk mem0 key (w ++ [0])).size + 1 = (w ++ [0]).length := by
      rw [hstrlen0, hn]
    have hread := tbd_read_single_slot (tbd_fresh_create_state size hunk mem0 key (w ++ [0]))
      (tbd_fresh_top size hunk mem0 key (w ++ [0]))
      (tbd_fresh_hunk size hunk mem0 key (w ++ [0])) (w ++ [0]).length key
      (tbd_fresh_state_stack size hunk mem0 key (w ++ [0]))
      (tbd_fresh_state_cache size hunk mem0 key (w ++ [0])) hcmp hstrlen
    rw [hread]
    refine ⟨rfl, ?_⟩
    exact memReadBytes_spec _ _ (w ++ [0]) (tbd_fresh_state_mem_value size hunk mem0 key (w ++ [0]))

/-- Witness for C1 (amended) at a concrete input: a 1024-byte arena with
hunk size 4, key "k" (byte 107) and the stored value bytes [1, 0]. -/
theorem C1_create_read_amended_witness :
    (tbd_read (tbd_create (tbd_init_state 1024 4 memZero) [107] [1, 0]).2
      [107] ([1] ++ [0] : List Nat).length).1 = TBD_NO_ERROR ∧
    (tbd_read (tbd_create (tbd_init_state 1024 4 memZero) [107] [1, 0]).2
      [107] ([1] ++ [0] : List Nat).length).2.1 = [1] ++ [0] :=
  C1_create_read_amended 1024 4 memZero (tbd_init_state 1024 4 memZero) [107] [1]
    rfl (by decide) (by decide) (by decide) (by decide)

/-- Counterexample for C1 as stated: Create accepts the two-byte value
[1, 2] (returning Ok), but because values are stored null-terminated the
immediately following Read of the same key recovers a different value size
with strlen and returns BadSize, not Ok. -/
theorem C1_counterexample :
    (tbd_create (tbd_init_state 1024 4 memZero) [107] [1, 2]).1 = TBD_NO_ERROR ∧
    (tbd_read (tbd_create (tbd_init_state 1024 4 memZero) [107] [1, 2]).2 [107] 2).1 =
      TBD_ERROR_BAD_SIZE ∧
    TBD_ERROR_BAD_SIZE ≠ TBD_NO_ERROR := by
  refine ⟨rfl, rfl, by decide⟩

/-- Claim C10: Delete leaves the descriptor stack count unchanged (first
conjunct, over every arena state and key); in particular, on a fresh arena
Create(k, v, n) followed by Delete(k) with no collector call leaves Count
at 1 and IsEmpty at 0 even though Read(k, _, _) returns NotFound. -/
theorem C10_count_after_delete :
    (∀ (s : Tbd) (k : List Nat), (tbd_delete s k).2.stack.length = s.stack.length) ∧
    (∀ (size hunk : Nat) (mem0 : Mem) (s0 : Tbd) (key v : List Nat),
      tbd_init size hunk mem0 = some s0 →
      (tbd_create s0 key v).1 = TBD_NO_ERROR →
      tbd_count (tbd_delete (tbd_create s0 key v).2 key).2 = 1 ∧
      tbd_is_empty (tbd_delete (tbd_create s0 key v).2 key).2 = 0 ∧
      ∀ n, (tbd_read (tbd_delete (tbd_create s0 key v).2 key).2 key n).1 =
        TBD_ERROR_KEY_NOT_FOUND) := by
  refine ⟨fun s k => tbd_delete_length s k, ?_⟩
  intro size hunk mem0 s0 key v hinit hok
  have hsize : ¬ size < sizeof_tbd_struct := by
    by_contra h
    unfold tbd_init at hinit
    rw [if_pos h] at hinit
    cases hinit
  have hs0 : s0 = tbd_init_state size hunk mem0 := by
    rw [tbd_init_eq size hunk mem0 hsize] at hinit
    exact (Option.some.inj hinit).symm
  subst hs0
  by_cases harena : sizeof_tbd_struct + sizeof_tbd_keyvalue +
      tbd_keyvalue_hunk_size (tbd_init_state size hunk mem0) (key.length + 1) v.length ≤ size
  case neg =>
    exfalso
    rw [tbd_create_on_init_fail size hunk mem0 key v harena] at hok
    simp [TBD_ERROR, TBD_NO_ERROR] at hok
  case pos =>
    rw [tbd_create_on_init size hunk mem0 key v harena]
    have hlen1 : (tbd_fresh_create_state size hunk mem0 key v).stack.length = 1 := by
      rw [tbd_fresh_state_stack]
      rfl
    have hdlen : (tbd_delete (tbd_fresh_create_state size hunk mem0 key v) key).2.stack.length = 1 := by
      rw [tbd_delete_length, hlen1]
    refine ⟨?_, ?_, ?_⟩
    · unfold tbd_count
      exact hdlen
    · unfold tbd_is_empty
      rw [hdlen]
      rfl
    · intro n
      refine tbd_read_not_found_of_find_none _ key n
        (tbd_find_after_delete_none (tbd_fresh_create_state size hunk mem0 key v) key ?_)
      intro a b ha hb
      have h1 := tbd_live_match_lt _ _ _ ha
      have h2 := tbd_live_match_lt _ _ _ hb
      omega

/-- Witness for C10 at a concrete input. -/
theorem C10_count_after_delete_witness :
    tbd_count (tbd_delete (tbd_create (tbd_init_state 1024 4 memZero) [107] [1, 0]).2 [107]).2 = 1 ∧
    tbd_is_empty (tbd_delete (tbd_create (tbd_init_state 1024 4 memZero) [107] [1, 0]).2 [107]).2 = 0 ∧
    ∀ n, (tbd_read (tbd_delete (tbd_create (tbd_init_state 1024 4 memZero) [107] [1, 0]).2 [107]).2
      [107] n).1 = TBD_ERROR_KEY_NOT_FOUND :=
  C10_count_after_delete.2 1024 4 memZero (tbd_init_state 1024 4 memZero) [107] [1, 0]
    rfl (by decide)

/-- Claim C8: Delete always returns Ok, including when the key is missing;
deleting twice returns Ok both times; and, provided at most one live
descriptor matches the key (section 3 invariant 5), any Read of the key
after the Delete returns NotFound. -/
theorem C8_delete_ok_idempotent (s : Tbd) (k : List Nat)
    (huniq : ∀ a, a < s.stack.length → ∀ b, b < s.stack.length →
      tbd_live_match s k a → tbd_live_match s k b → a = b) :
    (tbd_delete s k).1 = TBD_NO_ERROR ∧
    (tbd_delete (tbd_delete s k).2 k).1 = TBD_NO_ERROR ∧
    ∀ n, (tbd_read (tbd_delete s k).2 k n).1 = TBD_ERROR_KEY_NOT_FOUND := by
  refine ⟨tbd_delete_fst s k, tbd_delete_fst _ k, fun n => ?_⟩
  refine tbd_read_not_found_of_find_none _ k n (tbd_find_after_delete_none s k ?_)
  intro a b ha hb
  exact huniq a (tbd_live_match_lt _ _ _ ha) b (tbd_live_match_lt _ _ _ hb) ha hb

/-- Witness for C8 at a concrete input: an arena holding one entry. -/
theorem C8_delete_ok_idempotent_witness :
    (tbd_delete (tbd_fresh_create_state 1024 4 memZero [107] [1, 0]) [107]).1 = TBD_NO_ERROR ∧
    (tbd_delete (tbd_delete (tbd_fresh_create_state 1024 4 memZero [107] [1, 0]) [107]).2 [107]).1 =
      TBD_NO_ERROR ∧
    ∀ n, (tbd_read (tbd_delete (tbd_fresh_create_state 1024 4 memZero [107] [1, 0]) [107]).2
      [107] n).1 = TBD_ERROR_KEY_NOT_FOUND :=
  C8_delete_ok_idempotent (tbd_fresh_create_state 1024 4 memZero [107] [1, 0]) [107] (by decide)

/-- Claim C9 (amended): Clear and Empty do reset the last-found cache, and
Find is self-validating: it returns a descriptor only when that descriptor
is live and its stored key compares equal to the lookup argument, caching
exactly that descriptor.  Delete and the data-moving collector phases do
not clear the cache (see the counterexample), so the cache may point at a
garbage or relocated descriptor; the revalidation above is what keeps
lookups correct. -/
theorem C9_last_found_amended :
    (∀ s : Tbd, (tbd_clear s).last_found = none) ∧
    (∀ s : Tbd, (tbd_empty s).last_found = none) ∧
    (∀ (s : Tbd) (k : List Nat) (i : Nat), (tbd_find_keyvalue s k).1 = some i →
      tbd_live_match s k i ∧ (tbd_find_keyvalue s k).2.last_found = some i) := by
  refine ⟨fun s => rfl, fun s => rfl, fun s k i h => ⟨tbd_find_some_match s k i h, ?_⟩⟩
  rw [tbd_find_some_state s k i h]

/-- Witness for C9 (amended) at a concrete input. -/
theorem C9_last_found_amended_witness :
    tbd_live_match (tbd_fresh_create_state 1024 4 memZero [107] [1, 0]) [107] 0 ∧
    (tbd_find_keyvalue (tbd_fresh_create_state 1024 4 memZero [107] [1, 0]) [107]).2.last_found =
      some 0 :=
  C9_last_found_amended.2.2 (tbd_fresh_create_state 1024 4 memZero [107] [1, 0]) [107] 0
    (by decide)

/-- Counterexample for C9 as stated: after Create then Delete of key "k",
the last-found cache still holds the deleted descriptor's slot, which is
now garbage, so the invariant that a non-null last_found points to a live
descriptor is violated (Delete does not invalidate the cache). -/
theorem C9_counterexample :
    ¬ ((tbd_delete (tbd_fresh_create_state 1024 4 memZero [107] [1, 0]) [107]).2.last_found = none ∨
      ∀ i, (tbd_delete (tbd_fresh_create_state 1024 4 memZero [107] [1, 0]) [107]).2.last_found =
        some i →
        (stackGet (tbd_delete (tbd_fresh_create_state 1024 4 memZero [107] [1, 0]) [107]).2 i).is_garbage =
          false) := by
  intro h
  have hcache : (tbd_delete (tbd_fresh_create_state 1024 4 memZero [107] [1, 0]) [107]).2.last_found =
      some 0 := by decide
  have hgarb : (stackGet (tbd_delete (tbd_fresh_create_state 1024 4 memZero [107] [1, 0]) [107]).2
      0).is_garbage = true := by decide
  rcases h with h | h
  · rw [hcache] at h
    cases h
  · have := h 0 hcache
    rw [this] at hgarb
    cases hgarb

/-- Scenario arena for the Clean claim: two one-byte entries under keys
"a" and "b" (values stored with their null terminators), then Delete "a",
leaving garbage that does not touch the heap top. -/
def c2_scene : Tbd :=
  (tbd_delete (tbd_create (tbd_create (tbd_init_state 1024 4 memZero)
    [97] [1, 0]).2 [98] [2, 0]).2 [97]).2

/-- Counterexample for C2 as stated: after Clean on the two-entry arena
with a garbage hole below a live entry, GarbageSize is 53 (one 4-byte hunk
plus one 49-byte descriptor), not 0: fold merely transfers the garbage to
the other descriptor and collect stops once its running total reaches the
limit. -/
theorem C2_counterexample :
    tbd_garbage_size (tbd_garbage_clean c2_scene).2 = 53 ∧ (53 : Nat) ≠ 0 := by
  refine ⟨rfl, by decide⟩

/-- Claim C2 (amended): Clean() is literally Collect(GarbageSize) (first
conjunct, all states); but GarbageSize equals 0 after Clean only when all
garbage can be reclaimed, which the two-entry scenario refutes (the
garbage bytes survive, moved to the folded-out descriptor), while the
previously live key "b" still reads exactly its original bytes. -/
theorem C2_clean_amended :
    (∀ s : Tbd, tbd_garbage_clean s = tbd_garbage_collect s (tbd_garbage_size s)) ∧
    tbd_garbage_size c2_scene = 53 ∧
    (tbd_garbage_clean c2_scene).1 = 53 ∧
    tbd_garbage_size (tbd_garbage_clean c2_scene).2 = 53 ∧
    (tbd_read c2_scene [98] 2).2.1 = [2, 0] ∧
    (tbd_read (tbd_garbage_clean c2_scene).2 [98] 2).1 = TBD_NO_ERROR ∧
    (tbd_read (tbd_garbage_clean c2_scene).2 [98] 2).2.1 = [2, 0] :=
  ⟨fun _ => rfl, rfl, rfl, rfl, rfl, rfl, rfl⟩

theorem tbd_garbage_pop_loop_frame (limit fuel : Nat) :
    ∀ (s : Tbd) (acc : Nat),
      (tbd_garbage_pop_loop s acc limit fuel).2.mem = s.mem ∧
      (tbd_garbage_pop_loop s acc limit fuel).2.stack.length ≤ s.stack.length ∧
      (∀ j, j < (tbd_garbage_pop_loop s acc limit fuel).2.stack.length →
        tbd_keyvalue_core_eq (stackGet (tbd_garbage_pop_loop s acc limit fuel).2 j)
          (stackGet s j)) := by
  induction fuel with
  | zero => exact fun s acc => ⟨rfl, Nat.le_refl _, fun j hj => tbd_keyvalue_core_eq_refl _⟩
  | succ fuel ih =>
    intro s acc
    unfold tbd_garbage_pop_loop
    dsimp only
    split
    · split
      · exact ⟨rfl, Nat.le_refl _, fun j hj => tbd_keyvalue_core_eq_refl _⟩
      · have hmem2 : (tbd_garbage_list_delete { s with heap := tbd_heap_pop s.heap (stackGet s (s.stack.length - 1)).heap.size, stack := s.stack.dropLast } (s.stack.length - 1) (stackGet s (s.stack.length - 1))).mem = s.mem := by rw [tbd_garbage_list_delete_mem]
        have hlen2 : (tbd_garbage_list_delete { s with heap := tbd_heap_pop s.heap (stackGet s (s.stack.length - 1)).heap.size, stack := s.stack.dropLast } (s.stack.length - 1) (stackGet s (s.stack.length - 1))).stack.length = s.stack.length - 1 := by rw [tbd_garbage_list_delete_length]; exact List.length_dropLast s.stack
        have hcore2 : ∀ j, j < s.stack.length - 1 → tbd_keyvalue_core_eq (stackGet (tbd_garbage_list_delete { s with heap := tbd_heap_pop s.heap (stackGet s (s.stack.length - 1)).heap.size, stack := s.stack.dropLast } (s.stack.length - 1) (stackGet s (s.stack.length - 1))) j) (stackGet s j) := by
          intro j hj
          refine tbd_keyvalue_core_eq_trans (tbd_garbage_list_delete_core _ _ _ j (Or.inr (by dsimp only; rw [List.length_dropLast]))) ?_
          simp only [stackGet]
          rw [list_dropLast_getD s.stack j tbd_keyvalue_junk hj]
          exact tbd_keyvalue_core_eq_refl _
        split
        · refine ⟨hmem2, ?_, ?_⟩
          · rw [hlen2]; omega
          · intro j hj
            rw [hlen2] at hj
            exact hcore2 j hj
        · obtain ⟨ihm, ihl, ihc⟩ := ih (tbd_garbage_list_delete { s with heap := tbd_heap_pop s.heap (stackGet s (s.stack.length - 1)).heap.size, stack := s.stack.dropLast } (s.stack.length - 1) (stackGet s (s.stack.length - 1))) (acc + tbd_keyvalue_size (stackGet s (s.stack.length - 1)))
          refine ⟨ihm.trans hmem2, ?_, ?_⟩
          · rw [hlen2] at ihl; omega
          · intro j hj
            refine tbd_keyvalue_core_eq_trans (ihc j hj) (hcore2 j ?_)
            have hb := ihl
            rw [hlen2] at hb
            omega
    · exact ⟨rfl, Nat.le_refl _, fun j hj => tbd_keyvalue_core_eq_refl _⟩

theorem tbd_garbage_pop_empty_stack (s : Tbd) (limit : Nat) (h : s.stack.length = 0) :
    tbd_garbage_pop s limit = (0, s) := by
  unfold tbd_garbage_pop
  by_cases hl : limit = 0
  · rw [if_pos hl]
  · rw [if_neg hl, h]
    rfl

theorem tbd_garbage_pop_live_top (s : Tbd) (limit : Nat)
    (hlive : (stackGet s (s.stack.length - 1)).is_garbage = false) :
    tbd_garbage_pop s limit = (0, s) := by
  unfold tbd_garbage_pop
  by_cases hl : limit = 0
  · rw [if_pos hl]
  · rw [if_neg hl]
    cases hfl : s.stack.length with
    | zero => rfl
    | succ m =>
      unfold tbd_garbage_pop_loop
      dsimp only
      rw [if_neg]
      rintro ⟨-, hb, -⟩
      rw [hlive] at hb
      cases hb

/-- Scenario arena for the Pop claim: Create "1", Create "2", Delete "2";
the only garbage is the newest descriptor, whose hunk sits at the heap
top, and GarbageSize is 53 (4-byte hunk plus 49-byte descriptor). -/
def c5_scene : Tbd :=
  (tbd_delete (tbd_create (tbd_create (tbd_init_state 1024 4 memZero)
    [49] [1]).2 [50] [2]).2 [50]).2

/-- Claim C5: Pop never touches the heap bytes, and every descriptor that
remains on the stack after Pop keeps its hunk, key and value references
and garbage flag (so live data never moves); Pop stops at once on an empty
stack or on a live top descriptor; and on the scenario arena whose only
garbage is at the top of stack and heap, Pop(GarbageSize - 1) returns 0
and leaves GarbageSize unchanged (the next keyvalue would exceed the
limit, and Pop refuses a partial reclamation). -/
theorem C5_pop_semantics :
    (∀ (s : Tbd) (limit : Nat), (tbd_garbage_pop s limit).2.mem = s.mem) ∧
    (∀ (s : Tbd) (limit : Nat) (j : Nat), j < (tbd_garbage_pop s limit).2.stack.length →
      tbd_keyvalue_core_eq (stackGet (tbd_garbage_pop s limit).2 j) (stackGet s j)) ∧
    (∀ (s : Tbd) (limit : Nat), s.stack.length = 0 → tbd_garbage_pop s limit = (0, s)) ∧
    (∀ (s : Tbd) (limit : Nat), (stackGet s (s.stack.length - 1)).is_garbage = false →
      tbd_garbage_pop s limit = (0, s)) ∧
    tbd_garbage_size c5_scene = 53 ∧
    (tbd_garbage_pop c5_scene (tbd_garbage_size c5_scene - 1)).1 = 0 ∧
    tbd_garbage_size (tbd_garbage_pop c5_scene (tbd_garbage_size c5_scene - 1)).2 =
      tbd_garbage_size c5_scene := by
  refine ⟨?_, ?_, tbd_garbage_pop_empty_stack, tbd_garbage_pop_live_top, rfl, rfl, rfl⟩
  · intro s limit
    unfold tbd_garbage_pop
    by_cases hl : limit = 0
    · rw [if_pos hl]
    · rw [if_neg hl]
      exact (tbd_garbage_pop_loop_frame limit s.stack.length s 0).1
  · intro s limit j hj
    by_cases hl : limit = 0
    · have heq : tbd_garbage_pop s limit = (0, s) := by
        unfold tbd_garbage_pop
        rw [if_pos hl]
      rw [heq] at hj ⊢
      exact tbd_keyvalue_core_eq_refl _
    · have heq : tbd_garbage_pop s limit = tbd_garbage_pop_loop s 0 limit s.stack.length := by
        unfold tbd_garbage_pop
        rw [if_neg hl]
      rw [heq] at hj ⊢
      exact (tbd_garbage_pop_loop_frame limit s.stack.length s 0).2.2 j hj

/-- Witness for C5 at concrete inputs: Pop on an empty arena and Pop on an
arena whose top descriptor is live both return 0 and change nothing. -/
theorem C5_pop_semantics_witness :
    tbd_garbage_pop (tbd_init_state 1024 4 memZero) 10 = (0, tbd_init_state 1024 4 memZero) ∧
    tbd_garbage_pop (tbd_fresh_create_state 1024 4 memZero [107] [1, 0]) 100 =
      (0, tbd_fresh_create_state 1024 4 memZero [107] [1, 0]) :=
  ⟨C5_pop_semantics.2.2.1 (tbd_init_state 1024 4 memZero) 10 rfl,
   C5_pop_semantics.2.2.2.1 (tbd_fresh_create_state 1024 4 memZero [107] [1, 0]) 100 (by decide)⟩

theorem list_set_out (l : List TbdKeyvalue) (i : Nat) (x : TbdKeyvalue)
    (h : l.length ≤ i) : l.set i x = l := by
  induction l generalizing i with
  | nil => rfl
  | cons a t ih =>
    cases i with
    | zero => simp at h
    | succ i => simp only [List.set]; rw [ih i (by simpa using h)]

theorem tbd_keyvalue_merge_garbage_not_both (a b : TbdKeyvalue)
    (h : ¬(a.is_garbage = true ∧ b.is_garbage = true)) :
    tbd_keyvalue_merge_garbage a b = (a, b, 0) := by
  unfold tbd_keyvalue_merge_garbage
  rw [if_pos h]

theorem tbd_keyvalue_merge_garbage_flags (a b : TbdKeyvalue) :
    (tbd_keyvalue_merge_garbage a b).1.is_garbage = a.is_garbage ∧
    (tbd_keyvalue_merge_garbage a b).2.1.is_garbage = b.is_garbage := by
  unfold tbd_keyvalue_merge_garbage
  repeat' split
  all_goals exact ⟨rfl, rfl⟩

theorem tbd_keyvalue_merge_garbage_pair_spec (a b : TbdKeyvalue)
    (ha : a.is_garbage = true) (hb : b.is_garbage = true)
    (hlt : a.heap.top < b.heap.top) (hcont : tbd_heap_end a.heap = b.heap.top) :
    tbd_keyvalue_merge_garbage a b =
      ({ a with heap := { top := a.heap.top + (a.heap.size : Int), size := 0 } },
       { b with heap := { top := b.heap.top - (a.heap.size : Int), size := b.heap.size + a.heap.size } },
       b.heap.size + a.heap.size) := by
  unfold tbd_keyvalue_merge_garbage
  rw [if_neg (by intro hx; exact hx ⟨ha, hb⟩)]
  rw [if_neg (by unfold tbd_heap_cmp; rw [if_pos hlt]; decide)]
  rw [if_neg (by intro hx; exact hx hcont)]
  simp [tbd_heap_push, tbd_heap_pop, Nat.sub_self]

theorem tbd_garbage_merge_walk_live (i : Nat) :
    ∀ (s : Tbd) (j : Nat), (stackGet s j).is_garbage = false →
      stackGet (tbd_garbage_merge_walk s i).2 j = stackGet s j := by
  induction i with
  | zero => intro s j _; rfl
  | succ i ih =>
    intro s j hj
    unfold tbd_garbage_merge_walk
    dsimp only
    by_cases hcase : j = i + 1 ∨ j = i
    · have hnb : ¬((stackGet s (i + 1)).is_garbage = true ∧
          (stackGet s i).is_garbage = true) := by
        rcases hcase with h | h
        · subst h
          intro hx
          have hc := hx.1
          rw [hj] at hc
          exact Bool.noConfusion hc
        · subst h
          intro hx
          have hc := hx.2
          rw [hj] at hc
          exact Bool.noConfusion hc
      rw [tbd_keyvalue_merge_garbage_not_both (stackGet s (i + 1)) (stackGet s i) hnb]
      dsimp only
      have hstack : (s.stack.set (i + 1) (stackGet s (i + 1))).set i (stackGet s i) = s.stack := by
        simp only [stackGet]
        rw [list_set_getD_of_self, list_set_getD_of_self]
      rw [hstack]
      exact ih s j hj
    · push_neg at hcase
      obtain ⟨h1, h2⟩ := hcase
      have hget : ∀ (a b : TbdKeyvalue),
          ((s.stack.set (i + 1) a).set i b).getD j tbd_keyvalue_junk =
            s.stack.getD j tbd_keyvalue_junk := by
        intro a b
        rw [list_set_getD_ne _ _ _ _ _ h2, list_set_getD_ne _ _ _ _ _ h1]
      have hlive1 : (stackGet { s with stack := (s.stack.set (i + 1) (tbd_keyvalue_merge_garbage (stackGet s (i + 1)) (stackGet s i)).1).set i (tbd_keyvalue_merge_garbage (stackGet s (i + 1)) (stackGet s i)).2.1 } j).is_garbage = false := by
        simp only [stackGet]
        rw [hget]
        exact hj
      rw [ih _ j hlive1]
      simp only [stackGet]
      rw [hget]

/-- Scenario arena for the Merge claim: four entries "1".."4" with
equal-size values, Delete "2" and Delete "3", then SortByHeap (the stack
is already in descending heap-top order, so the sort is a fixpoint). -/
def c6_scene : Tbd :=
  (tbd_sort_by_heap (tbd_delete (tbd_delete
    (tbd_create (tbd_create (tbd_create (tbd_create (tbd_init_state 1024 4 memZero)
      [49] [7, 0]).2 [50] [7, 0]).2 [51] [7, 0]).2 [52] [7, 0]).2
    [50]).2 [51]).2).2

/-- Arena refuting the merge direction in the claim: a 4-byte entry "a"
created before an 8-byte entry "b", both deleted; the two garbage hunks
are heap-contiguous with the larger one at the lower address. -/
def c6x_scene : Tbd :=
  (tbd_delete (tbd_delete (tbd_create (tbd_create (tbd_init_state 1024 4 memZero)
    [97] [7]).2 [98] [5, 5, 5, 5, 5, 0]).2 [97]).2 [98]).2

/-- Claim C6 (amended): Merge walks the stack once and leaves every live
descriptor entirely untouched (first conjunct); whenever the pair of
stack-adjacent descriptors it examines are both garbage with the upper
(newer) one's hunk directly below the lower one's in the heap, it
coalesces the lower-addressed hunk into the higher-addressed descriptor
regardless of hunk sizes, reporting the merged hunk's resulting byte count
(second conjunct); and in the four-equal-entries scenario with the two
middle entries deleted and the stack sorted by heap, Merge returns
exactly the combined 8-byte hunk of the two deletions. -/
theorem C6_merge_amended :
    (∀ (s : Tbd) (j : Nat), (stackGet s j).is_garbage = false →
      stackGet (tbd_garbage_merge s).2 j = stackGet s j) ∧
    (∀ a b : TbdKeyvalue, a.is_garbage = true → b.is_garbage = true →
      a.heap.top < b.heap.top → tbd_heap_end a.heap = b.heap.top →
      tbd_keyvalue_merge_garbage a b =
        ({ a with heap := { top := a.heap.top + (a.heap.size : Int), size := 0 } },
         { b with heap := { top := b.heap.top - (a.heap.size : Int), size := b.heap.size + a.heap.size } },
         b.heap.size + a.heap.size)) ∧
    (stackGet c6_scene 1).heap.size + (stackGet c6_scene 2).heap.size = 8 ∧
    (tbd_garbage_merge c6_scene).1 = 8 ∧
    0 < (tbd_garbage_merge c6_scene).1 := by
  refine ⟨?_, tbd_keyvalue_merge_garbage_pair_spec, rfl, rfl, by decide⟩
  intro s j hj
  unfold tbd_garbage_merge
  by_cases hlen : s.stack.length = 0
  · rw [if_pos hlen]
  · rw [if_neg hlen]
    exact tbd_garbage_merge_walk_live (s.stack.length - 1) s j hj

/-- Witness for C6 (amended) at concrete inputs: the live bottom entry of
the four-key scenario is untouched by Merge, and a concrete garbage pair
with contiguous hunks merges per the second conjunct. -/
theorem C6_merge_amended_witness :
    stackGet (tbd_garbage_merge c6_scene).2 0 = stackGet c6_scene 0 ∧
    tbd_keyvalue_merge_garbage
      { heap := { top := 100, size := 4 }, key := { str := 0 }, value := { data := 0 },
        is_garbage := true, prev_garbage := none, next_garbage := none }
      { heap := { top := 104, size := 8 }, key := { str := 0 }, value := { data := 0 },
        is_garbage := true, prev_garbage := none, next_garbage := none } =
      ({ heap := { top := 104, size := 0 }, key := { str := 0 }, value := { data := 0 },
         is_garbage := true, prev_garbage := none, next_garbage := none },
       { heap := { top := 100, size := 12 }, key := { str := 0 }, value := { data := 0 },
         is_garbage := true, prev_garbage := none, next_garbage := none },
       12) := by
  constructor
  · exact C6_merge_amended.1 c6_scene 0 (by decide)
  · have h := C6_merge_amended.2.1
      { heap := { top := 100, size := 4 }, key := { str := 0 }, value := { data := 0 },
        is_garbage := true, prev_garbage := none, next_garbage := none }
      { heap := { top := 104, size := 8 }, key := { str := 0 }, value := { data := 0 },
        is_garbage := true, prev_garbage := none, next_garbage := none }
      rfl rfl (by decide) (by decide)
    rw [h]
    decide

/-- Counterexample for C6 as stated: in an arena holding two stack-adjacent
garbage descriptors with heap-contiguous hunks of sizes 4 (higher address,
slot 0) and 8 (lower address, slot 1), Merge empties the larger hunk's
descriptor and coalesces the bytes into the smaller hunk's descriptor,
contradicting the claim that the smaller hunk is coalesced into the
larger. -/
theorem C6_counterexample :
    (stackGet c6x_scene 0).heap.size = 4 ∧
    (stackGet c6x_scene 1).heap.size = 8 ∧
    (stackGet c6x_scene 0).is_garbage = true ∧
    (stackGet c6x_scene 1).is_garbage = true ∧
    tbd_heap_end (stackGet c6x_scene 1).heap = (stackGet c6x_scene 0).heap.top ∧
    (stackGet (tbd_garbage_merge c6x_scene).2 1).heap.size = 0 ∧
    (stackGet (tbd_garbage_merge c6x_scene).2 0).heap.size = 12 := by
  refine ⟨rfl, rfl, rfl, rfl, by decide, rfl, rfl⟩
